import Mathlib

/-!
Verification development for the azure-oai-proxy protocol translation engine.

This file gives a shallow embedding, in Lean, of the request/response and
streaming converters of the proxy (packages `anthropic` and `azure`), and
proves or refutes the frozen specification claims about them.

Conventions of the embedding:
* Go `map[string]interface{}` values decoded from JSON are modelled by the
  `Json` inductive below; `encoding/json` unmarshalling is modelled by a
  total, fuel-driven parser `parseJson`.
* JSON numbers are kept exactly as a mantissa/exponent pair (value
  m * 10 ^ e); Go represents them as `float64`.  Conversions to `int`
  truncate toward zero, as Go's conversions do.  The `intLit` flag records
  whether the literal was a plain integer, which is what
  `encoding/json` requires when decoding into a Go `int` field.
* Wall-clock reads (`time.Now()`) are modelled by an explicit `now`
  parameter threaded into the functions that use them.
* Writers are modelled by the list of write/flush events they receive.
-/

set_option maxHeartbeats 1000000
set_option maxRecDepth 100000

namespace Proxy

/-- Whitespace for Go's `strings.TrimSpace` and the JSON scanner (the ASCII
subset exercised by the proxy: space, tab, newline, carriage return). -/
def isWs (c : Char) : Bool := c = ' ' || c = '\t' || c = '\n' || c = '\r'

/-- Drop leading whitespace from a character list. -/
def trimLeftL : List Char → List Char
  | [] => []
  | c :: cs => if isWs c then trimLeftL cs else c :: cs

/-- Drop leading and trailing whitespace (Go `strings.TrimSpace`). -/
def trimL (cs : List Char) : List Char :=
  (trimLeftL ((trimLeftL cs).reverse)).reverse

/-- Go `strings.TrimSpace` on strings. -/
def strTrim (s : String) : String := String.mk (trimL s.data)

/-- Does `cs` start with the pattern `ps`? -/
def startsWithL : List Char → List Char → Bool
  | _, [] => true
  | [], _ :: _ => false
  | c :: cs, p :: ps => c = p && startsWithL cs ps

/-- Go `strings.HasPrefix`. -/
def strStarts (s p : String) : Bool := startsWithL s.data p.data

/-- Go `strings.TrimPrefix`: drop `p` from the front of `s` when present. -/
def dropPre (s p : String) : String :=
  if strStarts s p then String.mk (s.data.drop p.data.length) else s

/-- ASCII lower-casing of one character (Go `strings.ToLower` restricted to
the ASCII model identifiers the proxy handles). -/
def lowerChar (c : Char) : Char :=
  if 'A' ≤ c && c ≤ 'Z' then Char.ofNat (c.toNat + 32) else c

/-- Go `strings.ToLower` (ASCII fragment). -/
def strToLower (s : String) : String := String.mk (s.data.map lowerChar)

/-- Substring test on character lists (Go `strings.Contains`). -/
def containsSubL : List Char → List Char → Bool
  | [], sub => startsWithL [] sub
  | c :: rest, sub => startsWithL (c :: rest) sub || containsSubL rest sub

/-- Go `strings.Contains`. -/
def containsSub (s sub : String) : Bool := containsSubL s.data sub.data

/-- Replace the first occurrence of `old` in `cs` by `new`
(Go `strings.Replace(s, old, new, 1)` for non-empty `old`). -/
def replaceOnceL (cs old new : List Char) : List Char :=
  match cs with
  | [] => []
  | c :: rest =>
    if startsWithL (c :: rest) old then new ++ (c :: rest).drop old.length
    else c :: replaceOnceL rest old new

/-- Does `s` end with `t`? -/
def endsWithB (s t : String) : Bool :=
  t.data == s.data.drop (s.data.length - t.data.length)

/-- Character of one decimal digit. -/
def digitChar10 (n : Nat) : Char :=
  if n = 0 then '0' else if n = 1 then '1' else if n = 2 then '2'
  else if n = 3 then '3' else if n = 4 then '4' else if n = 5 then '5'
  else if n = 6 then '6' else if n = 7 then '7' else if n = 8 then '8' else '9'

/-- Decimal digits, least significant first, with a fuel bound (the fuel
`n` always suffices, since a number has at most `n` digits). -/
def natToRevAux : Nat → Nat → List Char
  | 0, _ => []
  | fuel + 1, n => if n = 0 then [] else digitChar10 (n % 10) :: natToRevAux fuel (n / 10)

/-- Decimal digits of a natural number, least significant first. -/
def natToRev (n : Nat) : List Char := natToRevAux n n

/-- Go `strings.Join`. -/
def goStringsJoin (sep : String) : List String → String
  | [] => ""
  | [x] => x
  | x :: y :: rest => x ++ sep ++ goStringsJoin sep (y :: rest)

/-- Decimal rendering of a natural number. -/
def natToStr (n : Nat) : String :=
  if n = 0 then "0" else String.mk (natToRev n).reverse

/-- Decimal rendering of an integer (Go's `%d`). -/
def intToStr (m : Int) : String :=
  if m < 0 then "-" ++ natToStr m.natAbs else natToStr m.natAbs

/-- Model of the dynamic JSON values Go produces when unmarshalling into
`map[string]interface{}` / `[]interface{}` / `interface{}`.  A number is
`m * 10 ^ e`; `intLit` is true when the source literal was a plain integer
(no fraction, no exponent), which is what `encoding/json` accepts for Go
`int` fields. -/
inductive Json where
  | null
  | bool (b : Bool)
  | num (m : Int) (e : Int) (intLit : Bool)
  | str (s : String)
  | arr (elems : List Json)
  | obj (fields : List (String × Json))

/-- Lookup in a JSON object.  `encoding/json` lets the last duplicate key
win when filling a map, hence the lookup prefers later bindings. -/
def objGetL : List (String × Json) → String → Option Json
  | [], _ => none
  | (k, v) :: rest, key =>
    match objGetL rest key with
    | some r => some r
    | none => if k = key then some v else none

/-- Field access on a JSON value (none when not an object). -/
def jGet : Json → String → Option Json
  | .obj kvs, k => objGetL kvs k
  | _, _ => none

/-- Truncating conversion of a JSON number to an integer, as Go's
`int(f)` / `int64(f)` conversions truncate a `float64` toward zero. -/
def jnumToInt (m e : Int) : Int :=
  if 0 ≤ e then m * 10 ^ e.toNat else Int.tdiv m (10 ^ (-e).toNat)

/-- Value of one hexadecimal digit. -/
def hexVal (c : Char) : Option Nat :=
  if '0' ≤ c && c ≤ '9' then some (c.toNat - 48)
  else if 'a' ≤ c && c ≤ 'f' then some (c.toNat - 87)
  else if 'A' ≤ c && c ≤ 'F' then some (c.toNat - 55)
  else none

/-- Body of a JSON string literal: consume characters after the opening
quote, handling the escapes of the JSON grammar, until the closing quote. -/
def pStrAux : List Char → List Char → Option (String × List Char)
  | acc, [] => none
  | acc, '"' :: rest => some (String.mk acc.reverse, rest)
  | acc, '\\' :: '"' :: rest => pStrAux ('"' :: acc) rest
  | acc, '\\' :: '\\' :: rest => pStrAux ('\\' :: acc) rest
  | acc, '\\' :: '/' :: rest => pStrAux ('/' :: acc) rest
  | acc, '\\' :: 'b' :: rest => pStrAux (Char.ofNat 8 :: acc) rest
  | acc, '\\' :: 'f' :: rest => pStrAux (Char.ofNat 12 :: acc) rest
  | acc, '\\' :: 'n' :: rest => pStrAux ('\n' :: acc) rest
  | acc, '\\' :: 'r' :: rest => pStrAux ('\r' :: acc) rest
  | acc, '\\' :: 't' :: rest => pStrAux ('\t' :: acc) rest
  | acc, '\\' :: 'u' :: a :: b :: c :: d :: rest =>
    match hexVal a, hexVal b, hexVal c, hexVal d with
    | some ha, some hb, some hc, some hd =>
      pStrAux (Char.ofNat (((ha * 16 + hb) * 16 + hc) * 16 + hd) :: acc) rest
    | _, _, _, _ => none
  | _, '\\' :: _ => none
  | acc, c :: rest => if c.toNat < 32 then none else pStrAux (c :: acc) rest

/-- Longest leading run of decimal digits, as digit values. -/
def pDigits : List Char → List Nat × List Char
  | [] => ([], [])
  | c :: rest =>
    if c.isDigit then
      let (ds, r) := pDigits rest
      ((c.toNat - 48) :: ds, r)
    else ([], c :: rest)

/-- Natural number denoted by a digit list. -/
def digitsToNat (ds : List Nat) : Nat := ds.foldl (fun a d => a * 10 + d) 0

/-- Optional fraction part `.digits` of a JSON number; `none` means a
malformed fraction, `some ([], cs)` means no fraction present. -/
def pFrac : List Char → Option (List Nat × List Char)
  | '.' :: rest =>
    match pDigits rest with
    | ([], _) => none
    | (ds, r) => some (ds, r)
  | cs => some ([], cs)

/-- Digit run of an exponent with the given sign. -/
def pExpDigits (sign : Bool) (r : List Char) : Option ((Bool × Int) × List Char) :=
  match pDigits r with
  | ([], _) => none
  | (ds, r2) =>
    some ((true, if sign then -(digitsToNat ds : Int) else (digitsToNat ds : Int)), r2)

/-- Optional exponent part of a JSON number; the boolean records whether an
exponent was present. -/
def pExp : List Char → Option ((Bool × Int) × List Char)
  | 'e' :: '+' :: rest => pExpDigits false rest
  | 'e' :: '-' :: rest => pExpDigits true rest
  | 'e' :: rest => pExpDigits false rest
  | 'E' :: '+' :: rest => pExpDigits false rest
  | 'E' :: '-' :: rest => pExpDigits true rest
  | 'E' :: rest => pExpDigits false rest
  | cs => some ((false, 0), cs)

/-- JSON number literal. -/
def pNum (cs : List Char) : Option (Json × List Char) :=
  let (neg, cs1) := match cs with | '-' :: r => (true, r) | _ => (false, cs)
  match pDigits cs1 with
  | ([], _) => none
  | (d :: ds, r1) =>
    if d = 0 && ds ≠ [] then none
    else
      match pFrac r1 with
      | none => none
      | some (fds, r2) =>
        match pExp r2 with
        | none => none
        | some ((expPresent, ex), r3) =>
          let mantissa : Nat := digitsToNat (d :: ds ++ fds)
          let m : Int := if neg then -(mantissa : Int) else (mantissa : Int)
          let e : Int := ex - fds.length
          some (Json.num m e (fds = [] && !expPresent), r3)

mutual

/-- Fuel-driven parser for one JSON value (models the `encoding/json`
scanner).  The fuel only bounds recursion depth; `parseJson` supplies
enough of it for any input. -/
def pVal : Nat → List Char → Option (Json × List Char)
  | 0, _ => none
  | Nat.succ fuel, cs =>
    match trimLeftL cs with
    | '"' :: rest =>
      (match pStrAux [] rest with
       | some (s, r) => some (.str s, r)
       | none => none)
    | 't' :: 'r' :: 'u' :: 'e' :: rest => some (.bool true, rest)
    | 'f' :: 'a' :: 'l' :: 's' :: 'e' :: rest => some (.bool false, rest)
    | 'n' :: 'u' :: 'l' :: 'l' :: rest => some (.null, rest)
    | '[' :: rest =>
      (match trimLeftL rest with
       | ']' :: r => some (.arr [], r)
       | cs2 =>
         match pElems fuel cs2 with
         | some (xs, r) => some (.arr xs, r)
         | none => none)
    | '\x7b' :: rest =>
      (match trimLeftL rest with
       | '\x7d' :: r => some (.obj [], r)
       | cs2 =>
         match pMembers fuel cs2 with
         | some (kvs, r) => some (.obj kvs, r)
         | none => none)
    | cs1 => pNum cs1

/-- Comma-separated array elements up to the closing bracket. -/
def pElems : Nat → List Char → Option (List Json × List Char)
  | 0, _ => none
  | Nat.succ fuel, cs =>
    match pVal fuel cs with
    | none => none
    | some (j, r) =>
      match trimLeftL r with
      | ',' :: r2 =>
        (match pElems fuel r2 with
         | some (xs, r3) => some (j :: xs, r3)
         | none => none)
      | ']' :: r2 => some ([j], r2)
      | _ => none

/-- Comma-separated object members up to the closing brace. -/
def pMembers : Nat → List Char → Option (List (String × Json) × List Char)
  | 0, _ => none
  | Nat.succ fuel, cs =>
    match trimLeftL cs with
    | '"' :: rest =>
      (match pStrAux [] rest with
       | none => none
       | some (k, r) =>
         match trimLeftL r with
         | ':' :: r2 =>
           (match pVal fuel r2 with
            | none => none
            | some (v, r3) =>
              match trimLeftL r3 with
              | ',' :: r4 =>
                (match pMembers fuel r4 with
                 | some (kvs, r5) => some ((k, v) :: kvs, r5)
                 | none => none)
              | '\x7d' :: r4 => some ([(k, v)], r4)
              | _ => none)
         | _ => none)
    | _ => none

end

/-- Parse a complete JSON document; trailing non-whitespace is an error,
as for `json.Unmarshal`. -/
def parseJson (s : String) : Option Json :=
  match pVal (2 * s.data.length + 4) s.data with
  | some (j, rest) => if trimLeftL rest = [] then some j else none
  | none => none

/-- Result of `json.Unmarshal` into a Go `map[string]interface{}`: the
document must be an object (or `null`, which leaves the map nil). -/
def jAsObjOrNull : Json → Option (List (String × Json))
  | .obj kvs => some kvs
  | .null => some []
  | _ => none

/-- Unmarshal a body into a Go map, as the azure converters do. -/
def parseObjOrNull (s : String) : Option (List (String × Json)) :=
  (parseJson s).bind jAsObjOrNull

/-- Lowercase hexadecimal digit. -/
def hexDigit (n : Nat) : Char :=
  if n < 10 then digitChar10 n
  else if n = 10 then 'a' else if n = 11 then 'b' else if n = 12 then 'c'
  else if n = 13 then 'd' else if n = 14 then 'e' else 'f'

/-- Escape one character as Go's `encoding/json` encoder does (including
its default HTML escaping of `<`, `>` and `&`). -/
def escChar (c : Char) : String :=
  if c = '"' then "\\\""
  else if c = '\\' then "\\\\"
  else if c = '\n' then "\\n"
  else if c = '\r' then "\\r"
  else if c = '\t' then "\\t"
  else if c = '<' then "\\u003c"
  else if c = '>' then "\\u003e"
  else if c = '&' then "\\u0026"
  else if c.toNat < 32 then
    "\\u00" ++ String.mk [hexDigit (c.toNat / 16), hexDigit (c.toNat % 16)]
  else String.singleton c

/-- Escape the characters of a list in order. -/
def escGo : List Char → String
  | [] => ""
  | c :: cs => escChar c ++ escGo cs

/-- JSON string escaping. -/
def escString (s : String) : String := escGo s.data

/-- Quoted JSON string literal. -/
def quoteJson (s : String) : String := "\"" ++ escString s ++ "\""

/-- Strip trailing zero digits (used when rendering fractional numbers the
way Go's shortest `float64` formatting renders them). -/
def trimZerosR (cs : List Char) : List Char :=
  ((cs.reverse).dropWhile (fun c => c = '0')).reverse

/-- Render `m / 10 ^ k` in decimal (Go renders `float64`s by their shortest
decimal form; this agrees with it on the token-count and parameter values
the proxy manipulates). -/
def jnumRenderFrac (m : Int) (k : Nat) : String :=
  let sign := if m < 0 then "-" else ""
  let ds0 := (natToStr m.natAbs).data
  let ds := if ds0.length ≤ k then List.replicate (k + 1 - ds0.length) '0' ++ ds0 else ds0
  let ip := String.mk (ds.take (ds.length - k))
  let fp := String.mk (trimZerosR (ds.drop (ds.length - k)))
  sign ++ ip ++ (if fp = "" then "" else "." ++ fp)

/-- Render a JSON number `m * 10 ^ e`. -/
def jnumRender (m e : Int) : String :=
  if 0 ≤ e then intToStr m ++ String.mk (List.replicate e.toNat '0')
  else jnumRenderFrac m (-e).toNat

/-- Lexicographic strict order on character lists (byte order on the
ASCII keys the proxy serializes). -/
def strLtLexL : List Char → List Char → Bool
  | [], [] => false
  | [], _ :: _ => true
  | _ :: _, [] => false
  | a :: as, b :: bs =>
    if a.toNat < b.toNat then true
    else if b.toNat < a.toNat then false
    else strLtLexL as bs

/-- Byte-order `≤` on strings (`sort.Strings` order). -/
def strLeB (a b : String) : Bool := !(strLtLexL b.data a.data)

/-- Insert a rendered member into a key-sorted rendered member list
(Go's `json.Marshal` writes map keys in sorted order). -/
def insertPair (p : String × String) : List (String × String) → List (String × String)
  | [] => [p]
  | q :: rest => if strLeB p.1 q.1 then p :: q :: rest else q :: insertPair p rest

/-- Sort rendered members by key. -/
def sortPairs : List (String × String) → List (String × String)
  | [] => []
  | p :: rest => insertPair p (sortPairs rest)

/-- Join rendered object members with commas. -/
def joinRenderedObj : List (String × String) → String
  | [] => ""
  | [(k, v)] => quoteJson k ++ ":" ++ v
  | (k, v) :: rest => quoteJson k ++ ":" ++ v ++ "," ++ joinRenderedObj rest

mutual

/-- Compact serialization of a JSON value, matching `json.Marshal` of the
corresponding Go `map[string]interface{}` (object keys sorted). -/
def jserialize : Json → String
  | .null => "null"
  | .bool true => "true"
  | .bool false => "false"
  | .num m e _ => jnumRender m e
  | .str s => quoteJson s
  | .arr xs => "[" ++ jserializeElems xs ++ "]"
  | .obj kvs => "\x7b" ++ joinRenderedObj (sortPairs (jserializeKVs kvs)) ++ "\x7d"

/-- Serialize array elements, comma-separated. -/
def jserializeElems : List Json → String
  | [] => ""
  | [x] => jserialize x
  | x :: y :: rest => jserialize x ++ "," ++ jserializeElems (y :: rest)

/-- Serialize the values of object members (keys joined later, sorted). -/
def jserializeKVs : List (String × Json) → List (String × String)
  | [] => []
  | (k, v) :: rest => (k, jserialize v) :: jserializeKVs rest

end

/-- Size of a looked-up value is below the size of the object, for the
termination of content extraction. -/
theorem objGetL_sizeOf :
    ∀ (kvs : List (String × Json)) (k : String) (v : Json),
      objGetL kvs k = some v → sizeOf v < sizeOf kvs := by
  intro kvs
  induction kvs with
  | nil => intro k v h; simp [objGetL] at h
  | cons p rest ih =>
    intro k v h
    obtain ⟨k', v'⟩ := p
    simp only [objGetL] at h
    rcases hr : objGetL rest k with _ | r
    · rw [hr] at h
      simp only at h
      split at h
      · cases h
        simp only [List.cons.sizeOf_spec, Prod.mk.sizeOf_spec]
        omega
      · cases h
    · rw [hr] at h
      simp only at h
      cases h
      have := ih k v hr
      simp only [List.cons.sizeOf_spec]
      omega

/-- One frame of the client-facing SSE stream: a chat-completion chunk or
the `[DONE]` termination sentinel. -/
inductive Frame where
  | chunk (j : Json)
  | done

/-- Events observed by the output writer. -/
inductive OutEv where
  | write (s : String)
  | flush

/-- Writer events of `writeChunk`: the `data: ` marker, the compact JSON,
a blank line, then a flush. -/
def wcEvents (j : Json) : List OutEv :=
  [.write "data: ", .write (jserialize j), .write "\n\n", .flush]

/-- Render a frame list to writer events; the sentinel's events differ per
converter (some flush after it, one does not). -/
def renderFrames (doneEvents : List OutEv) : List Frame → List OutEv
  | [] => []
  | Frame.chunk j :: rest => wcEvents j ++ renderFrames doneEvents rest
  | Frame.done :: rest => doneEvents ++ renderFrames doneEvents rest

/-- The literal keep-alive payload both Anthropic stream converters skip. -/
def pingLit : String := "\x7b\"type\": \"ping\"\x7d"

/-- State of a line-oriented SSE converter: the current event name and the
message identifier seen at stream start. -/
structure SCState where
  eventType : String
  messageID : String

namespace Anthro

/-- One content block of a Messages API response (`ContentItem`). -/
structure ContentItem where
  type : String
  text : String

/-- Token usage of a Messages API response. -/
structure Usage where
  input_tokens : Int
  output_tokens : Int

/-- Non-streaming Messages API response (`MessagesResponse`). -/
structure MessagesResponse where
  id : String
  type : String
  role : String
  content : List ContentItem
  model : String
  stop_reason : String
  stop_sequence : String
  usage : Usage

/-- Text delta of a `content_block_delta` event (`ContentDelta`). -/
structure ContentDelta where
  type : String
  text : String

/-- Zero value of `MessagesResponse` (Go struct zero value). -/
def zeroResponse : MessagesResponse := ⟨"", "", "", [], "", "", "", ⟨0, 0⟩⟩

/-- Decode a JSON value into a Go `string` field: strings decode, `null`
leaves the zero value, anything else is an unmarshalling type error. -/
def jAsString : Json → Option String
  | .str s => some s
  | .null => some ""
  | _ => none

/-- Decode a JSON value into a Go `int` field: only plain integer literals
decode; `null` leaves the zero value. -/
def jAsInt : Json → Option Int
  | .num m _ intLit => if intLit then some m else none
  | .null => some 0
  | _ => none

/-- Decode one struct field: an absent key leaves the zero value, a present
key must decode. -/
def decField {α : Type} (kvs : List (String × Json)) (k : String)
    (dec : Json → Option α) (dflt : α) : Option α :=
  match objGetL kvs k with
  | none => some dflt
  | some v => dec v

/-- Unmarshal a `ContentItem`. -/
def decContentItem : Json → Option ContentItem
  | .obj kvs => do
    let t ← decField kvs "type" jAsString ""
    let x ← decField kvs "text" jAsString ""
    pure ⟨t, x⟩
  | .null => some ⟨"", ""⟩
  | _ => none

/-- Unmarshal a `[]ContentItem`. -/
def decContentItems : Json → Option (List ContentItem)
  | .arr xs => xs.mapM decContentItem
  | .null => some []
  | _ => none

/-- Unmarshal a `Usage`. -/
def decUsage : Json → Option Usage
  | .obj kvs => do
    let i ← decField kvs "input_tokens" jAsInt 0
    let o ← decField kvs "output_tokens" jAsInt 0
    pure ⟨i, o⟩
  | .null => some ⟨0, 0⟩
  | _ => none

/-- Unmarshal a `MessagesResponse`. -/
def decMessagesResponse : Json → Option MessagesResponse
  | .obj kvs => do
    let i ← decField kvs "id" jAsString ""
    let t ← decField kvs "type" jAsString ""
    let r ← decField kvs "role" jAsString ""
    let c ← decField kvs "content" decContentItems []
    let m ← decField kvs "model" jAsString ""
    let sr ← decField kvs "stop_reason" jAsString ""
    let ss ← decField kvs "stop_sequence" jAsString ""
    let u ← decField kvs "usage" decUsage ⟨0, 0⟩
    pure ⟨i, t, r, c, m, sr, ss, u⟩
  | .null => some zeroResponse
  | _ => none

/-- Unmarshal a `MessageStartEvent` payload, yielding its message. -/
def decodeMessageStartData (data : String) : Option MessagesResponse :=
  match parseJson data with
  | some (.obj kvs) => do
    let _ ← decField kvs "type" jAsString ""
    decField kvs "message" decMessagesResponse zeroResponse
  | some .null => some zeroResponse
  | _ => none

/-- Unmarshal a `ContentDelta`. -/
def decContentDelta : Json → Option ContentDelta
  | .obj kvs => do
    let t ← decField kvs "type" jAsString ""
    let x ← decField kvs "text" jAsString ""
    pure ⟨t, x⟩
  | .null => some ⟨"", ""⟩
  | _ => none

/-- Unmarshal a `ContentBlockDeltaEvent` payload, yielding its delta. -/
def decodeContentDeltaData (data : String) : Option ContentDelta :=
  match parseJson data with
  | some (.obj kvs) => do
    let _ ← decField kvs "type" jAsString ""
    let _ ← decField kvs "index" jAsInt 0
    decField kvs "delta" decContentDelta ⟨"", ""⟩
  | some .null => some ⟨"", ""⟩
  | _ => none

/-- Chunk written by `StreamConverter.handleMessageStart`: a role-only
delta. -/
def scStartChunk (messageID model : String) : Json :=
  .obj [("id", .str messageID), ("object", .str "chat.completion.chunk"),
        ("created", .num 0 0 true), ("model", .str model),
        ("choices", .arr [.obj [("index", .num 0 0 true),
                                ("delta", .obj [("role", .str "assistant")]),
                                ("finish_reason", .null)]])]

/-- Chunk written by `StreamConverter.handleContentDelta`. -/
def scDeltaChunk (messageID model text : String) : Json :=
  .obj [("id", .str messageID), ("object", .str "chat.completion.chunk"),
        ("created", .num 0 0 true), ("model", .str model),
        ("choices", .arr [.obj [("index", .num 0 0 true),
                                ("delta", .obj [("content", .str text)]),
                                ("finish_reason", .null)]])]

/-- Final chunk written by `StreamConverter.handleMessageStop`: an empty
delta and `finish_reason` "stop". -/
def scStopChunk (messageID model : String) : Json :=
  .obj [("id", .str messageID), ("object", .str "chat.completion.chunk"),
        ("created", .num 0 0 true), ("model", .str model),
        ("choices", .arr [.obj [("index", .num 0 0 true),
                                ("delta", .obj []),
                                ("finish_reason", .str "stop")]])]

/-- `StreamConverter.handleMessageStart`: on an unmarshalling error the
chunk is skipped (logged in Go); otherwise the message id is recorded and
a role chunk is emitted. -/
def scHandleMessageStart (model data : String) (st : SCState) :
    List Frame × SCState :=
  match decodeMessageStartData data with
  | none => ([], st)
  | some resp =>
    ([Frame.chunk (scStartChunk resp.id model)], { st with messageID := resp.id })

/-- `StreamConverter.handleContentDelta`: a content chunk carrying the
delta text (no empty-text check in this converter). -/
def scHandleContentDelta (model data : String) (st : SCState) : List Frame :=
  match decodeContentDeltaData data with
  | none => []
  | some delta => [Frame.chunk (scDeltaChunk st.messageID model delta.text)]

/-- `StreamConverter.Convert` (pkg `anthropic`): the line loop of the
Anthropic-to-OpenAI SSE conversion.  Returns the frames written and the
lines left unread (the function returns as soon as `message_stop` is
handled). -/
def scConvert (model : String) : SCState → List String → List Frame × List String
  | _, [] => ([], [])
  | st, l :: rest =>
    let line := strTrim l
    if line = "" then scConvert model { st with eventType := "" } rest
    else if strStarts line "event:" then
      scConvert model { st with eventType := strTrim (dropPre line "event:") } rest
    else if strStarts line "data:" then
      let data := strTrim (dropPre line "data:")
      if data = "" || data = pingLit then scConvert model st rest
      else if st.eventType = "message_start" then
        let (fs, st') := scHandleMessageStart model data st
        let (fs2, left) := scConvert model st' rest
        (fs ++ fs2, left)
      else if st.eventType = "content_block_delta" then
        let (fs2, left) := scConvert model st rest
        (scHandleContentDelta model data st ++ fs2, left)
      else if st.eventType = "message_stop" then
        ([Frame.chunk (scStopChunk st.messageID model), Frame.done], rest)
      else scConvert model st rest
    else scConvert model st rest

/-- Writer events for the `[DONE]` sentinel in pkg `anthropic`'s
`handleMessageStop` (written directly, with no flush after it). -/
def scDoneEvents : List OutEv := [.write "data: [DONE]\n\n"]

/-- `mapStopReason` (pkg `anthropic`). -/
def mapStopReason (anthropicReason : String) : String :=
  if anthropicReason = "end_turn" then "stop"
  else if anthropicReason = "max_tokens" then "length"
  else if anthropicReason = "stop_sequence" then "stop"
  else "stop"

/-- Message of a converted chat completion. -/
structure ChatMessage where
  role : String
  content : String

/-- Choice of a converted chat completion. -/
structure ChatChoice where
  index : Int
  message : ChatMessage
  finish_reason : String

/-- Usage totals of a converted chat completion. -/
structure ChatUsage where
  prompt_tokens : Int
  completion_tokens : Int
  total_tokens : Int

/-- Converted chat completion (the map built by
`ConvertAnthropicToOpenAI`). -/
structure ChatCompletion where
  id : String
  object : String
  created : Int
  model : String
  choices : List ChatChoice
  usage : ChatUsage

/-- `ConvertAnthropicToOpenAI` (pkg `anthropic`): concatenates the text of
the text-typed content blocks and maps the stop reason. -/
def convertAnthropicToOpenAI (r : MessagesResponse) : ChatCompletion :=
  let content :=
    r.content.foldl (fun acc item => if item.type = "text" then acc ++ item.text else acc) ""
  { id := r.id, object := "chat.completion", created := 0, model := r.model,
    choices := [⟨0, ⟨"assistant", content⟩, mapStopReason r.stop_reason⟩],
    usage := ⟨r.usage.input_tokens, r.usage.output_tokens,
              r.usage.input_tokens + r.usage.output_tokens⟩ }

mutual

/-- `extractMessageContent` (pkg `anthropic`): flatten one content value to
a string.  Strings pass through; arrays join their trimmed, non-empty
pieces with newlines; maps look up `text`, `input_text`, `content`,
`value`, `message` in that order; anything else is marshalled to JSON. -/
def extractMessageContent : Json → String
  | .str v => v
  | .arr parts => extractParts parts ""
  | .obj kvs =>
    (match objGetL kvs "text" with
     | some (.str t) => t
     | _ =>
       match objGetL kvs "input_text" with
       | some (.str t) => t
       | _ =>
         match h : objGetL kvs "content" with
         | some nested => extractMessageContent nested
         | none =>
           match objGetL kvs "value" with
           | some (.str t) => t
           | _ =>
             match h2 : objGetL kvs "message" with
             | some (.obj mkvs) => extractMessageContent (.obj mkvs)
             | _ => jserialize (.obj kvs))
  | .null => ""
  | .bool b => jserialize (.bool b)
  | .num m e il => jserialize (.num m e il)
termination_by j => sizeOf j
decreasing_by
  all_goals simp_wf
  all_goals first
    | omega
    | (have hsz := objGetL_sizeOf _ _ _ h; omega)
    | (have hsz := objGetL_sizeOf _ _ _ h2
       simp only [Json.obj.sizeOf_spec] at hsz
       omega)

/-- The `strings.Builder` loop inside the array case of
`extractMessageContent`: `acc` is the builder content. -/
def extractParts : List Json → String → String
  | [], acc => acc
  | p :: rest, acc =>
    let piece := strTrim (extractMessageContent p)
    if piece = "" then extractParts rest acc
    else if acc = "" then extractParts rest piece
    else extractParts rest (acc ++ "\n" ++ piece)
termination_by ps _ => sizeOf ps
decreasing_by all_goals simp_wf <;> omega

end

end Anthro

namespace Az

/-- Space-join of rendered `fmt.Sprintf("%v", ...)` map members. -/
def goSprintfMapJoin : List (String × String) → String
  | [] => ""
  | [(k, v)] => k ++ ":" ++ v
  | (k, v) :: rest => k ++ ":" ++ v ++ " " ++ goSprintfMapJoin rest

mutual

/-- Go `fmt.Sprintf("%v", v)` on a decoded JSON value (maps print their
keys sorted, as `fmt` does). -/
def goSprintf : Json → String
  | .null => "<nil>"
  | .bool true => "true"
  | .bool false => "false"
  | .num m e _ => jnumRender m e
  | .str s => s
  | .arr xs => "[" ++ goSprintfList xs ++ "]"
  | .obj kvs => "map[" ++ goSprintfMapJoin (sortPairs (goSprintfKVs kvs)) ++ "]"

/-- Space-join of `%v`-rendered slice elements. -/
def goSprintfList : List Json → String
  | [] => ""
  | [x] => goSprintf x
  | x :: y :: rest => goSprintf x ++ " " ++ goSprintfList (y :: rest)

/-- Render the values of map members for `%v`. -/
def goSprintfKVs : List (String × Json) → List (String × String)
  | [] => []
  | (k, v) :: rest => (k, goSprintf v) :: goSprintfKVs rest

end

/-- Leading decimal integer reading used for gjson's string-to-int
coercion (only exact decimal strings convert; anything else is 0, an
approximation of gjson's numeric parsing that the proxy never relies
on). -/
def parseDecIntOr0 (s : String) : Int :=
  let (neg, ds) := match s.data with | '-' :: r => (true, r) | r => (false, r)
  if ds ≠ [] && ds.all Char.isDigit then
    let n := digitsToNat (ds.map (fun c => c.toNat - 48))
    if neg then -(n : Int) else (n : Int)
  else 0

/-- gjson `Result.Array()`: a JSON array yields its elements, a missing or
null result yields nothing, any other value yields itself. -/
def gjsonArray : Option Json → List Json
  | some (.arr xs) => xs
  | none => []
  | some .null => []
  | some v => [v]

/-- gjson `Result.String()`: strings pass through, missing/null become "",
booleans and numbers render, and composite values render as their JSON
(gjson returns the raw source slice; this serializer normalizes member
order, which the proxy's uses never depend on). -/
def gjsonString : Option Json → String
  | none => ""
  | some .null => ""
  | some (.str s) => s
  | some (.bool true) => "true"
  | some (.bool false) => "false"
  | some (.num m e _) => jnumRender m e
  | some j => jserialize j

/-- gjson `Result.Int()`: numbers truncate, booleans map to 0/1, numeric
strings parse, everything else is 0. -/
def gjsonInt : Option Json → Int
  | some (.num m e _) => jnumToInt m e
  | some (.bool true) => 1
  | some (.bool false) => 0
  | some (.str s) => parseDecIntOr0 s
  | _ => 0

/-- gjson `Result.Bool()` (approximated on strings; the proxy only reads
genuine booleans here). -/
def gjsonBool : Option Json → Bool
  | some (.bool b) => b
  | some (.str s) => s = "true" || s = "1"
  | some (.num m _ _) => !(m == 0)
  | _ => false

/-- gjson `Result.Float()` as an exact mantissa/exponent pair. -/
def gjsonFloat : Option Json → Int × Int
  | some (.num m e _) => (m, e)
  | some (.bool true) => (1, 0)
  | _ => (0, 0)

/-- `getStringValue` (pkg `azure`, claude path): nil yields "", strings
pass through, anything else is `fmt.Sprintf("%v", v)`. -/
def getStringValue : Option Json → String
  | none => ""
  | some .null => ""
  | some (.str s) => s
  | some v => goSprintf v

/-- `getIntFromInterface`: numeric values truncate, all else is 0. -/
def getIntFromInterface : Option Json → Int
  | some (.num m e _) => jnumToInt m e
  | _ => 0

/-- `getFloatFromInterface` as an exact mantissa/exponent pair. -/
def getFloatFromInterface : Option Json → Int × Int
  | some (.num m e _) => (m, e)
  | _ => (0, 0)

/-- `extractStopSequences`: a non-empty string, or the non-empty strings
of an array. -/
def extractStopSequences : Option Json → List String
  | some (.str s) => if s = "" then [] else [s]
  | some (.arr items) =>
    items.filterMap fun it =>
      match it with
      | .str s => if s = "" then none else some s
      | _ => none
  | _ => []

/-- `normalizeContentBlock`: keep `text`/`input_text` blocks with a
non-empty `text` string, normalized to `text` type (represented here by
the block's text). -/
def normalizeContentBlock (kvs : List (String × Json)) : Option String :=
  let btype := match objGetL kvs "type" with | some (.str t) => t | _ => ""
  if btype = "text" || btype = "input_text" then
    match objGetL kvs "text" with
    | some (.str t) => if t = "" then none else some t
    | _ => none
  else none

/-- One item of an array content value, as `convertContentToBlocks`
handles it. -/
def blockOfItem : Json → Option String
  | .str s => if s = "" then none else some s
  | .obj kvs => normalizeContentBlock kvs
  | _ => none

/-- `convertContentToBlocks`: every produced block is
`{type: "text", text: t}`; the list of the `t`s represents it. -/
def convertContentToBlocks : Option Json → List String
  | none => []
  | some .null => []
  | some (.str s) => if s = "" then [] else [s]
  | some (.arr items) => items.filterMap blockOfItem
  | some (.obj kvs) =>
    (match normalizeContentBlock kvs with
     | some t => [t]
     | none => [])
  | some v => [goSprintf v]

/-- `flattenContentToString`: join the block texts with newlines. -/
def flattenContentToString (content : Option Json) : String :=
  let blocks := convertContentToBlocks content
  if blocks = [] then "" else goStringsJoin "\n" blocks

/-- One normalized message of the upstream Anthropic body; `content` lists
the texts of its `{type: "text"}` blocks. -/
structure AnthMsg where
  role : String
  content : List String

/-- Lower-cased role of a raw client message (as the message loop of
`convertOpenAIRequestToAnthropic` computes it). -/
def msgRoleLower : Json → String
  | .obj kvs => strToLower (getStringValue (objGetL kvs "role"))
  | _ => ""

/-- The message loop of `convertOpenAIRequestToAnthropic`: system texts
accumulate separately; user/assistant/tool messages with non-empty blocks
are kept (tool becomes assistant); everything else is skipped. -/
def processOAIMessages : List Json → List String × List AnthMsg
  | [] => ([], [])
  | raw :: rest =>
    let (sys, msgs) := processOAIMessages rest
    match raw with
    | .obj mkvs =>
      let role := strToLower (getStringValue (objGetL mkvs "role"))
      if role = "system" then
        let text := flattenContentToString (objGetL mkvs "content")
        if text = "" then (sys, msgs) else (text :: sys, msgs)
      else if role = "user" || role = "assistant" then
        let blocks := convertContentToBlocks (objGetL mkvs "content")
        if blocks = [] then (sys, msgs) else (sys, ⟨role, blocks⟩ :: msgs)
      else if role = "tool" then
        let blocks := convertContentToBlocks (objGetL mkvs "content")
        if blocks = [] then (sys, msgs) else (sys, ⟨"assistant", blocks⟩ :: msgs)
      else (sys, msgs)
    | _ => (sys, msgs)

/-- The user-first rotation of `convertOpenAIRequestToAnthropic`: when the
first message is not a user turn, the first user turn found is moved to
the front and the preceding messages shift right by one (the `copy`
call), preserving their relative order. -/
def rotateFirstUser : List AnthMsg → List AnthMsg
  | [] => []
  | m0 :: ms =>
    if m0.role = "user" then m0 :: ms
    else
      match ms.dropWhile (fun m => m.role != "user") with
      | [] => m0 :: ms
      | u :: tail => u :: m0 :: (ms.takeWhile (fun m => m.role != "user") ++ tail)

/-- The upstream body built by `convertOpenAIRequestToAnthropic`
(optional fields are the map keys set conditionally). -/
structure MessagesBody where
  model : Json
  messages : List AnthMsg
  max_tokens : Int
  system : Option String
  temperature : Option (Int × Int)
  top_p : Option (Int × Int)
  stop_sequences : Option (List String)
  stream : Bool
  metadata : Option (List (String × Json))

/-- `convertOpenAIRequestToAnthropic` (pkg `azure`, claude path): `none`
models the error returns (no messages array, or no usable user/assistant
message). -/
def convertOpenAIRequestToAnthropic (payload : List (String × Json)) :
    Option MessagesBody :=
  match objGetL payload "messages" with
  | some (.arr msgsRaw) =>
    if msgsRaw.isEmpty then none
    else
      let (sysList, msgs0) := processOAIMessages msgsRaw
      if msgs0.isEmpty then none
      else
        let msgs := rotateFirstUser msgs0
        let mt0 := getIntFromInterface (objGetL payload "max_tokens")
        let maxTokens := if mt0 ≤ 0 then 1024 else mt0
        let temperature := getFloatFromInterface (objGetL payload "temperature")
        let topP := getFloatFromInterface (objGetL payload "top_p")
        let stops0 := extractStopSequences (objGetL payload "stop")
        let stops :=
          if stops0 = [] then extractStopSequences (objGetL payload "stop_sequences")
          else stops0
        let stream :=
          match objGetL payload "stream" with
          | some (.bool true) => true
          | _ => false
        some { model := (objGetL payload "model").getD .null,
               messages := msgs,
               max_tokens := maxTokens,
               system :=
                 if sysList ≠ [] then some (goStringsJoin "\n" sysList) else none,
               temperature := if 0 < temperature.1 then some temperature else none,
               top_p := if 0 < topP.1 then some topP else none,
               stop_sequences := if stops ≠ [] then some stops else none,
               stream := stream,
               metadata :=
                 match objGetL payload "metadata" with
                 | some (.obj mkvs) => if mkvs.isEmpty then none else some mkvs
                 | _ => none }
  | _ => none

/-- Replace a key in a Go map (assignment). -/
def mapSet : List (String × Json) → String → Json → List (String × Json)
  | [], k, v => [(k, v)]
  | (k', v') :: rest, k, v =>
    if k' = k then (k, v) :: rest else (k', v') :: mapSet rest k v

/-- One step of the message loop of `convertChatToAnthropicMessages`: a
system message overwrites the pending system text, every other message is
appended as a `{role, content}` pair with its content stringified. -/
def ctamStep (acc : String × List Json) (msg : Json) : String × List Json :=
  let role := gjsonString (jGet msg "role")
  let content := gjsonString (jGet msg "content")
  if role = "system" then (content, acc.2)
  else (acc.1, acc.2 ++ [Json.obj [("role", .str role), ("content", .str content)]])

/-- `convertChatToAnthropicMessages` (pkg `azure`, gjson-based variant):
the upstream body it builds from a client chat-completions body.  This
variant extracts at most one system message (the last wins) and appends
the remaining messages in order without any reordering; `max_tokens` is
replaced by the default 1000 only when it is exactly 0. -/
def convertChatToAnthropicMessagesBody (model : String)
    (bodyKvs : List (String × Json)) : Json :=
  let messages := gjsonArray (objGetL bodyKvs "messages")
  let temperature := gjsonFloat (objGetL bodyKvs "temperature")
  let maxTokens := gjsonInt (objGetL bodyKvs "max_tokens")
  let stream := gjsonBool (objGetL bodyKvs "stream")
  let input := gjsonString (objGetL bodyKvs "input")
  let sysAndMsgs :=
    if input ≠ "" then
      ("", [Json.obj [("role", .str "user"), ("content", .str input)]])
    else
      messages.foldl ctamStep (("", []) : String × List Json)
  let systemMessage := sysAndMsgs.1
  let anthMsgs := sysAndMsgs.2
  let nb : List (String × Json) :=
    [("model", .str model), ("messages", .arr anthMsgs),
     ("max_tokens", .num maxTokens 0 true)]
  let nb := if systemMessage ≠ "" then nb ++ [("system", .str systemMessage)] else nb
  let nb :=
    if 0 < temperature.1 then nb ++ [("temperature", .num temperature.1 temperature.2 false)]
    else nb
  let nb := if stream then nb ++ [("stream", .bool true)] else nb
  let nb := if maxTokens = 0 then mapSet nb "max_tokens" (.num 1000 0 true) else nb
  Json.obj nb

/-- `getInt64` helper of the azure response converter. -/
def getInt64J : Option Json → Int
  | some (.num m e _) => jnumToInt m e
  | _ => 0

/-- Content extraction of `convertAnthropicToChatCompletion`: only the
text of the FIRST content block (no type check, no concatenation). -/
def azureAnthropicContent (kvs : List (String × Json)) : String :=
  match objGetL kvs "content" with
  | some (.arr (first :: _)) =>
    (match first with
     | .obj fkvs =>
       (match objGetL fkvs "text" with
        | some (.str t) => t
        | _ => "")
     | _ => "")
  | _ => ""

/-- Stop-reason mapping of `convertAnthropicToChatCompletion`. -/
def azureAnthropicFinish (kvs : List (String × Json)) : String :=
  match objGetL kvs "stop_reason" with
  | some (.str sr) =>
    if sr = "end_turn" then "stop"
    else if sr = "max_tokens" then "length"
    else if sr = "stop_sequence" then "stop"
    else "stop"
  | _ => "stop"

/-- Usage map of `convertAnthropicToChatCompletion`: raw token values are
copied through, and the total is their truncated sum. -/
def azureAnthropicUsage (kvs : List (String × Json)) : List (String × Json) :=
  let u0 : List (String × Json) :=
    [("prompt_tokens", .num 0 0 true), ("completion_tokens", .num 0 0 true),
     ("total_tokens", .num 0 0 true)]
  match objGetL kvs "usage" with
  | some (.obj ukvs) =>
    let u1 :=
      match objGetL ukvs "input_tokens" with
      | some v => mapSet u0 "prompt_tokens" v
      | none => u0
    let u2 :=
      match objGetL ukvs "output_tokens" with
      | some v => mapSet u1 "completion_tokens" v
      | none => u1
    mapSet u2 "total_tokens"
      (.num (getInt64J (objGetL u2 "prompt_tokens") +
             getInt64J (objGetL u2 "completion_tokens")) 0 true)
  | _ => u0

/-- The chat-completion map built by `convertAnthropicToChatCompletion`
for a successfully parsed, non-error Anthropic response. -/
def convertAnthropicToChatCompletionJson (now : Int) (model : String)
    (kvs : List (String × Json)) : Json :=
  Json.obj
    [("id", (objGetL kvs "id").getD .null),
     ("object", .str "chat.completion"),
     ("created", .num now 0 true),
     ("model", .str model),
     ("choices", .arr [Json.obj
        [("index", .num 0 0 true),
         ("message", Json.obj [("role", .str "assistant"),
                               ("content", .str (azureAnthropicContent kvs))]),
         ("finish_reason", .str (azureAnthropicFinish kvs)),
         ("logprobs", .null)]]),
     ("usage", .obj (azureAnthropicUsage kvs)),
     ("system_fingerprint", .null)]

/-- `convertAnthropicToChatCompletion` (pkg `azure`), body to body:
unparseable bodies and bodies carrying a non-null `error` pass through
unchanged; everything else is reshaped.  `now` models `time.Now().Unix()`
and `model` the `X-Model` request header. -/
def convertAnthropicToChatCompletion (now : Int) (model body : String) : String :=
  match parseObjOrNull body with
  | none => body
  | some kvs =>
    match objGetL kvs "error" with
    | some Json.null => jserialize (convertAnthropicToChatCompletionJson now model kvs)
    | some _ => body
    | none => jserialize (convertAnthropicToChatCompletionJson now model kvs)

/-- First `output_text` content entry carrying a string `text` (the inner
loop of the Responses fallback walk; its `break` only leaves the inner
loop). -/
def respOutputTextOf : List Json → Option String
  | [] => none
  | c :: rest =>
    match c with
    | .obj ckvs =>
      (match objGetL ckvs "type" with
       | some (.str "output_text") =>
         (match objGetL ckvs "text" with
          | some (.str t) => some t
          | _ => respOutputTextOf rest)
       | _ => respOutputTextOf rest)
    | _ => respOutputTextOf rest

/-- Content extraction of `convertResponsesToChatCompletion`: the
top-level `output_text` if present, else the walk over output items (a
later assistant message overwrites an earlier one, because the `break`
only leaves the inner loop). -/
def respContent (kvs : List (String × Json)) : String :=
  match objGetL kvs "output_text" with
  | some (.str s) => s
  | _ =>
    match objGetL kvs "output" with
    | some (.arr outputs) =>
      outputs.foldl
        (fun acc o =>
          match o with
          | .obj okvs =>
            (match objGetL okvs "type", objGetL okvs "role" with
             | some (.str "message"), some (.str "assistant") =>
               (match objGetL okvs "content" with
                | some (.arr cs) => (respOutputTextOf cs).getD acc
                | _ => acc)
             | _, _ => acc)
          | _ => acc) ""
    | _ => ""

/-- Finish-reason of `convertResponsesToChatCompletion`: a non-"completed"
status string passes through. -/
def respFinish (kvs : List (String × Json)) : String :=
  match objGetL kvs "status" with
  | some (.str st) => if st ≠ "completed" then st else "stop"
  | _ => "stop"

/-- Usage extraction of `convertResponsesToChatCompletion` (float64-typed
token counts truncate to ints). -/
def respUsage (kvs : List (String × Json)) : List (String × Json) :=
  let u0 : List (String × Json) :=
    [("prompt_tokens", .num 0 0 true), ("completion_tokens", .num 0 0 true),
     ("total_tokens", .num 0 0 true)]
  match objGetL kvs "usage" with
  | some (.obj ukvs) =>
    let u1 :=
      match objGetL ukvs "input_tokens" with
      | some (.num m e _) => mapSet u0 "prompt_tokens" (.num (jnumToInt m e) 0 true)
      | _ => u0
    let u2 :=
      match objGetL ukvs "output_tokens" with
      | some (.num m e _) => mapSet u1 "completion_tokens" (.num (jnumToInt m e) 0 true)
      | _ => u1
    (match objGetL ukvs "total_tokens" with
     | some (.num m e _) => mapSet u2 "total_tokens" (.num (jnumToInt m e) 0 true)
     | _ => u2)
  | _ => u0

/-- Created timestamp of `convertResponsesToChatCompletion`: `created_at`
if non-zero, else the current time. -/
def respCreated (now : Int) (kvs : List (String × Json)) : Int :=
  let p := getFloatFromInterface (objGetL kvs "created_at")
  let c := jnumToInt p.1 p.2
  if c = 0 then now else c

/-- The chat-completion map built by `convertResponsesToChatCompletion`. -/
def convertResponsesToChatCompletionJson (now : Int)
    (kvs : List (String × Json)) : Json :=
  Json.obj
    [("id", (objGetL kvs "id").getD .null),
     ("object", .str "chat.completion"),
     ("created", .num (respCreated now kvs) 0 true),
     ("model", (objGetL kvs "model").getD .null),
     ("choices", .arr [Json.obj
        [("index", .num 0 0 true),
         ("message", Json.obj [("role", .str "assistant"),
                               ("content", .str (respContent kvs))]),
         ("finish_reason", .str (respFinish kvs)),
         ("logprobs", .null)]]),
     ("usage", .obj (respUsage kvs)),
     ("system_fingerprint", .null)]

/-- `convertResponsesToChatCompletion` (pkg `azure`), body to body:
unparseable bodies, event-stream responses, and bodies with a non-null
`error` pass through unchanged. -/
def convertResponsesToChatCompletion (now : Int) (contentType body : String) :
    String :=
  match parseObjOrNull body with
  | none => body
  | some kvs =>
    if strStarts contentType "text/event-stream" then body
    else
      match objGetL kvs "error" with
      | some Json.null => jserialize (convertResponsesToChatCompletionJson now kvs)
      | some _ => body
      | none => jserialize (convertResponsesToChatCompletionJson now kvs)

/-- Body dispatch of `modifyResponse` (pkg `azure`): non-streaming
responses are converted only at status 200 for the marked paths;
everything else (including the ≥ 400 log-and-rewrap branch) leaves the
body bytes unchanged.  Event-stream responses are handed to the stream
converters, modelled separately; this function returns their body
untouched. -/
def modifyResponseBody (now : Int) (contentType urlPath origPath xModel : String)
    (status : Nat) (body : String) : String :=
  if strStarts contentType "text/event-stream" then body
  else
    let b1 :=
      if containsSub urlPath "/openai/v1/responses" && (status == 200) &&
         (origPath == "/v1/chat/completions")
      then convertResponsesToChatCompletion now contentType body
      else body
    if containsSub urlPath "/anthropic/v1/messages" && (status == 200) &&
       (origPath == "/v1/chat/completions")
    then convertAnthropicToChatCompletion now
      (if xModel == "" then "claude-unknown" else xModel) b1
    else b1

/-- The static `AzureOpenAIModelMapper` table populated at startup
(default contents, no environment overrides). -/
def azureOpenAIModelMapper : List (String × String) :=
  [("gpt-5.2", "gpt-5.2"),
   ("gpt-5.2-2025-12-11", "gpt-5.2-2025-12-11"),
   ("gpt-5.2-chat", "gpt-5.2-chat"),
   ("gpt-5.2-chat-2025-12-11", "gpt-5.2-chat-2025-12-11"),
   ("gpt-5.1", "gpt-5.1"),
   ("gpt-5.1-2025-11-13", "gpt-5.1-2025-11-13"),
   ("gpt-5.1-chat", "gpt-5.1-chat"),
   ("gpt-5.1-chat-2025-11-13", "gpt-5.1-chat-2025-11-13"),
   ("gpt-5.1-codex", "gpt-5.1-codex"),
   ("gpt-5.1-codex-2025-11-13", "gpt-5.1-codex-2025-11-13"),
   ("gpt-5.1-codex-mini", "gpt-5.1-codex-mini"),
   ("gpt-5.1-codex-mini-2025-11-13", "gpt-5.1-codex-mini-2025-11-13"),
   ("gpt-5.1-codex-max", "gpt-5.1-codex-max"),
   ("gpt-5.1-codex-max-2025-12-04", "gpt-5.1-codex-max-2025-12-04"),
   ("gpt-5", "gpt-5"),
   ("gpt-5-2025-08-07", "gpt-5-2025-08-07"),
   ("gpt-5-mini", "gpt-5-mini"),
   ("gpt-5-mini-2025-08-07", "gpt-5-mini-2025-08-07"),
   ("gpt-5-nano", "gpt-5-nano"),
   ("gpt-5-nano-2025-08-07", "gpt-5-nano-2025-08-07"),
   ("gpt-5-chat", "gpt-5-chat"),
   ("gpt-5-chat-2025-08-07", "gpt-5-chat-2025-08-07"),
   ("gpt-5-chat-2025-10-03", "gpt-5-chat-2025-10-03"),
   ("gpt-5-codex", "gpt-5-codex"),
   ("gpt-5-codex-2025-09-11", "gpt-5-codex-2025-09-11"),
   ("gpt-5-pro", "gpt-5-pro"),
   ("gpt-5-pro-2025-10-06", "gpt-5-pro-2025-10-06"),
   ("gpt-4.1", "gpt-4.1"),
   ("gpt-4.1-2025-04-14", "gpt-4.1-2025-04-14"),
   ("gpt-4.1-mini", "gpt-4.1-mini"),
   ("gpt-4.1-mini-2025-04-14", "gpt-4.1-mini-2025-04-14"),
   ("gpt-4.1-nano", "gpt-4.1-nano"),
   ("gpt-4.1-nano-2025-04-14", "gpt-4.1-nano-2025-04-14"),
   ("o1", "o1"),
   ("o1-2024-12-17", "o1-2024-12-17"),
   ("o1-preview", "o1-preview"),
   ("o1-preview-2024-09-12", "o1-preview-2024-09-12"),
   ("o1-mini", "o1-mini"),
   ("o1-mini-2024-09-12", "o1-mini-2024-09-12"),
   ("o3", "o3"),
   ("o3-2025-04-16", "o3-2025-04-16"),
   ("o3-mini", "o3-mini"),
   ("o3-mini-2025-01-31", "o3-mini-2025-01-31"),
   ("o3-pro", "o3-pro"),
   ("o3-pro-2025-06-10", "o3-pro-2025-06-10"),
   ("o3-deep-research", "o3-deep-research"),
   ("o3-deep-research-2025-06-26", "o3-deep-research-2025-06-26"),
   ("o4", "o4"),
   ("o4-mini", "o4-mini"),
   ("o4-mini-2025-04-16", "o4-mini-2025-04-16"),
   ("codex-mini", "codex-mini"),
   ("codex-mini-2025-05-16", "codex-mini-2025-05-16"),
   ("computer-use-preview", "computer-use-preview"),
   ("computer-use-preview-2025-03-11", "computer-use-preview-2025-03-11"),
   ("gpt-oss-120b", "gpt-oss-120b"),
   ("gpt-oss-20b", "gpt-oss-20b"),
   ("claude-opus-4.5", "claude-opus-4.5"),
   ("claude-opus-4-5", "claude-opus-4.5"),
   ("claude-sonnet-4.5", "claude-sonnet-4.5"),
   ("claude-sonnet-4-5", "claude-sonnet-4.5"),
   ("claude-haiku-4.5", "claude-haiku-4.5"),
   ("claude-haiku-4-5", "claude-haiku-4.5"),
   ("claude-opus-4.1", "claude-opus-4.1"),
   ("claude-opus-4-1", "claude-opus-4.1"),
   ("gpt-4o", "gpt-4o"),
   ("gpt-4o-2024-05-13", "gpt-4o-2024-05-13"),
   ("gpt-4o-2024-08-06", "gpt-4o-2024-08-06"),
   ("gpt-4o-2024-11-20", "gpt-4o-2024-11-20"),
   ("gpt-4o-mini", "gpt-4o-mini"),
   ("gpt-4o-mini-2024-07-18", "gpt-4o-mini-2024-07-18"),
   ("gpt-4", "gpt-4-0613"),
   ("gpt-4-0613", "gpt-4-0613"),
   ("gpt-4-1106-preview", "gpt-4-1106-preview"),
   ("gpt-4-0125-preview", "gpt-4-0125-preview"),
   ("gpt-4-vision-preview", "gpt-4-vision-preview"),
   ("gpt-4-turbo", "gpt-4-turbo"),
   ("gpt-4-turbo-2024-04-09", "gpt-4-turbo-2024-04-09"),
   ("gpt-4-32k", "gpt-4-32k-0613"),
   ("gpt-4-32k-0613", "gpt-4-32k-0613"),
   ("gpt-3.5-turbo", "gpt-35-turbo-0613"),
   ("gpt-3.5-turbo-0301", "gpt-35-turbo-0301"),
   ("gpt-3.5-turbo-0613", "gpt-35-turbo-0613"),
   ("gpt-3.5-turbo-1106", "gpt-35-turbo-1106"),
   ("gpt-3.5-turbo-0125", "gpt-35-turbo-0125"),
   ("gpt-3.5-turbo-16k", "gpt-35-turbo-16k-0613"),
   ("gpt-3.5-turbo-16k-0613", "gpt-35-turbo-16k-0613"),
   ("gpt-3.5-turbo-instruct", "gpt-35-turbo-instruct-0914"),
   ("gpt-3.5-turbo-instruct-0914", "gpt-35-turbo-instruct-0914"),
   ("text-embedding-3-small", "text-embedding-3-small-1"),
   ("text-embedding-3-large", "text-embedding-3-large-1"),
   ("text-embedding-ada-002", "text-embedding-ada-002-2"),
   ("text-embedding-ada-002-1", "text-embedding-ada-002-1"),
   ("text-embedding-ada-002-2", "text-embedding-ada-002-2"),
   ("dall-e-2", "dall-e-2-2.0"),
   ("dall-e-2-2.0", "dall-e-2-2.0"),
   ("dall-e-3", "dall-e-3-3.0"),
   ("dall-e-3-3.0", "dall-e-3-3.0"),
   ("babbage-002", "babbage-002-1"),
   ("babbage-002-1", "babbage-002-1"),
   ("davinci-002", "davinci-002-1"),
   ("davinci-002-1", "davinci-002-1"),
   ("gpt-4o-audio-preview", "gpt-4o-audio-preview"),
   ("gpt-4o-audio-preview-2024-12-17", "gpt-4o-audio-preview-2024-12-17"),
   ("gpt-4o-mini-audio-preview", "gpt-4o-mini-audio-preview"),
   ("gpt-4o-mini-audio-preview-2024-12-17", "gpt-4o-mini-audio-preview-2024-12-17"),
   ("gpt-4o-realtime-preview", "gpt-4o-realtime-preview"),
   ("gpt-4o-realtime-preview-2024-12-17", "gpt-4o-realtime-preview-2024-12-17"),
   ("gpt-4o-realtime-preview-2025-06-03", "gpt-4o-realtime-preview-2025-06-03"),
   ("gpt-4o-mini-realtime-preview", "gpt-4o-mini-realtime-preview"),
   ("gpt-4o-mini-realtime-preview-2024-12-17", "gpt-4o-mini-realtime-preview-2024-12-17"),
   ("gpt-realtime", "gpt-realtime"),
   ("gpt-realtime-2025-08-28", "gpt-realtime-2025-08-28"),
   ("gpt-realtime-mini", "gpt-realtime-mini"),
   ("gpt-realtime-mini-2025-10-06", "gpt-realtime-mini-2025-10-06"),
   ("gpt-audio", "gpt-audio"),
   ("gpt-audio-2025-08-28", "gpt-audio-2025-08-28"),
   ("gpt-audio-mini", "gpt-audio-mini"),
   ("gpt-audio-mini-2025-10-06", "gpt-audio-mini-2025-10-06"),
   ("gpt-4o-transcribe", "gpt-4o-transcribe"),
   ("gpt-4o-transcribe-2025-03-20", "gpt-4o-transcribe-2025-03-20"),
   ("gpt-4o-mini-transcribe", "gpt-4o-mini-transcribe"),
   ("gpt-4o-mini-transcribe-2025-03-20", "gpt-4o-mini-transcribe-2025-03-20"),
   ("gpt-4o-transcribe-diarize", "gpt-4o-transcribe-diarize"),
   ("gpt-4o-transcribe-diarize-2025-10-15", "gpt-4o-transcribe-diarize-2025-10-15"),
   ("tts", "tts-001"),
   ("tts-001", "tts-001"),
   ("tts-hd", "tts-hd-001"),
   ("tts-hd-001", "tts-hd-001"),
   ("gpt-4o-mini-tts", "gpt-4o-mini-tts"),
   ("gpt-4o-mini-tts-2025-03-20", "gpt-4o-mini-tts-2025-03-20"),
   ("whisper", "whisper-001"),
   ("whisper-001", "whisper-001"),
   ("gpt-image-1", "gpt-image-1"),
   ("gpt-image-1-2025-04-15", "gpt-image-1-2025-04-15"),
   ("gpt-image-1-mini", "gpt-image-1-mini"),
   ("gpt-image-1-mini-2025-10-06", "gpt-image-1-mini-2025-10-06"),
   ("sora", "sora"),
   ("sora-2025-05-02", "sora-2025-05-02"),
   ("sora-2", "sora-2"),
   ("sora-2-2025-10-06", "sora-2-2025-10-06"),
   ("phi-3", "phi-3"),
   ("phi-3-mini", "phi-3-mini"),
   ("phi-3-small", "phi-3-small"),
   ("phi-3-medium", "phi-3-medium"),
   ("phi-4", "phi-4")]

/-- Go map lookup in the mapper table (keys are unique). -/
def mapLookup (table : List (String × String)) (k : String) : Option String :=
  match table.find? (fun p => p.1 == k) with
  | some p => some p.2
  | none => none

/-- Does a reversed character list start with a `dd-mm-yyyy-` layout,
i.e. does the string end in `-YYYY-MM-DD`? -/
def dateSuffix11 : List Char → Bool
  | d1 :: d2 :: '-' :: m1 :: m2 :: '-' :: y1 :: y2 :: y3 :: y4 :: '-' :: _ =>
    d1.isDigit && d2.isDigit && m1.isDigit && m2.isDigit &&
    y1.isDigit && y2.isDigit && y3.isDigit && y4.isDigit
  | _ => false

/-- Does the string end in `-YYYYMMDD` (reversed view)? -/
def dateSuffix9 : List Char → Bool
  | a :: b :: c :: d :: e :: f :: g :: h :: '-' :: _ =>
    a.isDigit && b.isDigit && c.isDigit && d.isDigit &&
    e.isDigit && f.isDigit && g.isDigit && h.isDigit
  | _ => false

/-- `stripModelVersion`: remove a single trailing `-YYYY-MM-DD` or
`-YYYYMMDD` date suffix (the two regex alternatives cannot overlap). -/
def stripModelVersion (s : String) : String :=
  let r := s.data.reverse
  if dateSuffix11 r then String.mk (r.drop 11).reverse
  else if dateSuffix9 r then String.mk (r.drop 9).reverse
  else s

/-- `resolveModelDeployment`: exact lower-cased table match, then a match
after stripping a date suffix, then the raw model name itself.  Never an
error. -/
def resolveModelDeployment (model : String) : String :=
  let modelLower := strToLower model
  match mapLookup azureOpenAIModelMapper modelLower with
  | some azureModel => azureModel
  | none =>
    let stripped := stripModelVersion modelLower
    if stripped ≠ modelLower then
      match mapLookup azureOpenAIModelMapper stripped with
      | some azureModel => azureModel
      | none => model
    else model

/-- Default API versions of the azure package (no environment overrides). -/
def azureOpenAIAPIVersion : String := "2024-08-01-preview"

/-- Default Responses API version. -/
def azureOpenAIResponsesAPIVersion : String := "2024-08-01-preview"

/-- Default `anthropic-version` header value. -/
def anthropicAPIVersion : String := "2023-06-01"

/-- The request fields the transport director manipulates. -/
structure ProxyReq where
  scheme : String
  host : String
  path : String
  query : List (String × String)
  headers : List (String × String)

/-- Header read (`req.Header.Get`): empty when absent. -/
def hGet (hs : List (String × String)) (k : String) : String :=
  match hs.find? (fun p => p.1 == k) with
  | some p => p.2
  | none => ""

/-- Header replace (`req.Header.Set`). -/
def hSet (hs : List (String × String)) (k v : String) : List (String × String) :=
  (k, v) :: hs.filter (fun p => p.1 != k)

/-- Header delete (`req.Header.Del`). -/
def hDel (hs : List (String × String)) (k : String) : List (String × String) :=
  hs.filter (fun p => p.1 != k)

/-- Query append (`url.Values.Add`). -/
def qAdd (q : List (String × String)) (k v : String) : List (String × String) :=
  q ++ [(k, v)]

/-- Query replace (`url.Values.Set`). -/
def qSet (q : List (String × String)) (k v : String) : List (String × String) :=
  q.filter (fun p => p.1 != k) ++ [(k, v)]

/-- Split a character list at `/` separators. -/
def splitSlashL : List Char → List (List Char)
  | [] => [[]]
  | '/' :: rest => [] :: splitSlashL rest
  | c :: rest =>
    match splitSlashL rest with
    | [] => [[c]]
    | g :: gs => (c :: g) :: gs

/-- Go `path.Clean` (lexical cleaning of slash-separated paths). -/
def pathClean (s : String) : String :=
  if s = "" then "." else
  let abs := strStarts s "/"
  let segs := (splitSlashL s.data).map String.mk
  let stack := segs.foldl
    (fun st seg =>
      if seg = "" || seg = "." then st
      else if seg = ".." then
        match st with
        | [] => if abs then [] else [".."]
        | top :: rest => if top = ".." then seg :: st else rest
      else seg :: st) []
  let core := goStringsJoin "/" stack.reverse
  if abs then (if core = "" then "/" else "/" ++ core)
  else (if core = "" then "." else core)

/-- Go `path.Join`: drop empty elements, join with `/`, clean. -/
def goPathJoin (elems : List String) : String :=
  let es := elems.filter (fun e => e ≠ "")
  if es.isEmpty then "" else pathClean (goStringsJoin "/" es)

/-- `handleRegularRequest` (pkg `azure`, non-serverless path): rewrites
scheme/host to the configured endpoint, rewrites the path per endpoint
family, attaches `api-version` except for the Anthropic Messages path
(which gets the `anthropic-version` header instead), and switches the
`api-key` header to a bearer `Authorization` header on the Anthropic
path. -/
def handleRegularRequest (remoteScheme remoteHost deployment : String)
    (req : ProxyReq) : ProxyReq :=
  let req := { req with scheme := remoteScheme, host := remoteHost }
  let req :=
    if containsSub req.path "/v1/responses" then
      let req :=
        if strStarts req.path "/v1/responses" && !(containsSub req.path "/responses/")
        then { req with path := "/openai/v1/responses" }
        else { req with path := String.mk (replaceOnceL req.path.data "/v1/".data "/openai/v1/".data) }
      { req with query := qSet req.query "api-version" azureOpenAIResponsesAPIVersion }
    else
      let pathAndType :=
        if strStarts req.path "/v1/anthropic/messages" then
          ("/anthropic/v1/messages", "anthropic/messages")
        else if strStarts req.path "/v1/chat/completions" then
          (goPathJoin ["/openai/deployments", deployment, "chat/completions"], "chat/completions")
        else if strStarts req.path "/v1/completions" then
          (goPathJoin ["/openai/deployments", deployment, "completions"], "completions")
        else if strStarts req.path "/v1/embeddings" then
          (goPathJoin ["/openai/deployments", deployment, "embeddings"], "embeddings")
        else if strStarts req.path "/v1/images/generations" then
          (goPathJoin ["/openai/deployments", deployment, "images/generations"], "images/generations")
        else if strStarts req.path "/v1/audio/" then
          (goPathJoin ["/openai/deployments", deployment, dropPre req.path "/v1/"], "audio")
        else if strStarts req.path "/v1/files" then
          (String.mk (replaceOnceL req.path.data "/v1/".data "/openai/".data), "files")
        else
          (goPathJoin ["/openai/deployments", deployment, dropPre req.path "/v1/"], "other")
      let req := { req with path := pathAndType.1 }
      if pathAndType.2 ≠ "anthropic/messages" then
        { req with query := qAdd req.query "api-version" azureOpenAIAPIVersion }
      else
        { req with headers := hSet req.headers "anthropic-version" anthropicAPIVersion }
  let apiKey := hGet req.headers "api-key"
  if apiKey ≠ "" && containsSub req.path "/anthropic/v1/messages" then
    { req with headers := hDel (hSet req.headers "Authorization" ("Bearer " ++ apiKey)) "api-key" }
  else req

/-- `handleClaudeProxyRequest` (part_007, x-api-key mode of the
conversational routing): `none` models its error returns (body conversion
failure; the unconfigured-endpoint and unparseable-endpoint errors are the
caller passing no base URL).  `baseScheme`/`baseHost`/`basePath` model the
parsed `AzureAnthropicEndpoint` URL and `anthropicVersion` the
`AzureAnthropicAPIVersion` configuration value; `apiKey` stands for the
result of `extractAPIKey(req)`, whose source is not among the repository
files (the key resolved from the incoming request's credentials). -/
def handleClaudeProxyRequest (baseScheme baseHost basePath anthropicVersion
    model apiKey : String) (payload : List (String × Json)) (req : ProxyReq) :
    Option ProxyReq :=
  match convertOpenAIRequestToAnthropic payload with
  | none => none
  | some body =>
    let stream := body.stream
    let targetPath0 := goPathJoin [basePath, "v1", "messages"]
    let targetPath := if strStarts targetPath0 "/" then targetPath0
      else "/" ++ targetPath0
    let req := { req with scheme := baseScheme, host := baseHost, path := targetPath, query := [] }
    let hs := hSet req.headers "X-Original-Path" "/v1/chat/completions"
    let hs := hSet hs "X-Proxy-Provider" "anthropic"
    let hs := hSet hs "X-Model" model
    let hs := if apiKey ≠ "" then hSet hs "x-api-key" apiKey else hs
    let hs := hDel hs "api-key"
    let hs := hDel hs "Authorization"
    let hs := hSet hs "anthropic-version" anthropicVersion
    let hs := if stream then
        hSet (hSet hs "Accept" "text/event-stream") "Cache-Control" "no-cache"
      else hs
    some { req with headers := hs }

/-- Role chunk of `AnthropicStreamingConverter.handleMessageStart`
(streaming.go variant). -/
def asgStartChunk (messageID model : String) (now : Int) : Json :=
  .obj [("id", .str messageID), ("object", .str "chat.completion.chunk"),
        ("created", .num now 0 true), ("model", .str model),
        ("choices", .arr [.obj [("index", .num 0 0 true),
                                ("delta", .obj [("role", .str "assistant")]),
                                ("finish_reason", .null)]])]

/-- Content chunk of `AnthropicStreamingConverter.handleContentDelta`
(streaming.go variant). -/
def asgDeltaChunk (messageID model text : String) (now : Int) : Json :=
  .obj [("id", .str messageID), ("object", .str "chat.completion.chunk"),
        ("created", .num now 0 true), ("model", .str model),
        ("choices", .arr [.obj [("index", .num 0 0 true),
                                ("delta", .obj [("content", .str text)]),
                                ("finish_reason", .null)]])]

/-- Finishing chunk of `AnthropicStreamingConverter.handleMessageDelta`
(streaming.go variant). -/
def asgFinishChunk (messageID model finish : String) (now : Int) : Json :=
  .obj [("id", .str messageID), ("object", .str "chat.completion.chunk"),
        ("created", .num now 0 true), ("model", .str model),
        ("choices", .arr [.obj [("index", .num 0 0 true),
                                ("delta", .obj []),
                                ("finish_reason", .str finish)]])]

/-- Stop-reason mapping of `handleMessageDelta` (streaming.go variant). -/
def asgFinishReason (stopReason : String) : String :=
  if stopReason = "end_turn" then "stop"
  else if stopReason = "max_tokens" then "length"
  else if stopReason = "stop_sequence" then "stop"
  else "stop"

/-- `handleMessageStart` (streaming.go variant): a parse error skips the
event; otherwise the message id is recorded when present and a role chunk
is always emitted. -/
def asgHandleMessageStart (model : String) (now : Int) (data : String)
    (st : SCState) : List Frame × SCState :=
  match parseObjOrNull data with
  | none => ([], st)
  | some kvs =>
    let mid :=
      match objGetL kvs "message" with
      | some (.obj mkvs) =>
        (match objGetL mkvs "id" with
         | some (.str i) => i
         | _ => st.messageID)
      | _ => st.messageID
    ([Frame.chunk (asgStartChunk mid model now)], { st with messageID := mid })

/-- `handleContentDelta` (streaming.go variant): empty text deltas are
skipped. -/
def asgHandleContentDelta (model : String) (now : Int) (data : String)
    (st : SCState) : List Frame :=
  match parseObjOrNull data with
  | none => []
  | some kvs =>
    let textDelta :=
      match objGetL kvs "delta" with
      | some (.obj dkvs) =>
        (match objGetL dkvs "text" with
         | some (.str t) => t
         | _ => "")
      | _ => ""
    if textDelta = "" then []
    else [Frame.chunk (asgDeltaChunk st.messageID model textDelta now)]

/-- `handleMessageDelta` (streaming.go variant): always emits the mapped
finish-reason chunk on a successful parse. -/
def asgHandleMessageDelta (model : String) (now : Int) (data : String)
    (st : SCState) : List Frame :=
  match parseObjOrNull data with
  | none => []
  | some kvs =>
    let stopReason :=
      match objGetL kvs "delta" with
      | some (.obj dkvs) =>
        (match objGetL dkvs "stop_reason" with
         | some (.str r) => r
         | _ => "")
      | _ => ""
    [Frame.chunk (asgFinishChunk st.messageID model (asgFinishReason stopReason) now)]

/-- `AnthropicStreamingConverter.Convert` (streaming.go variant): at
`message_stop` only the `[DONE]` sentinel is written and the function
returns; the finish-reason chunk comes from `message_delta`. -/
def asgConvert (model : String) (now : Int) :
    SCState → List String → List Frame × List String
  | _, [] => ([], [])
  | st, l :: rest =>
    if strStarts l "event:" then
      asgConvert model now { st with eventType := strTrim (dropPre l "event:") } rest
    else if strStarts l "data:" then
      let data := strTrim (dropPre l "data:")
      if data = "" || data = pingLit then asgConvert model now st rest
      else if st.eventType = "message_start" then
        let (fs, st') := asgHandleMessageStart model now data st
        let (fs2, left) := asgConvert model now st' rest
        (fs ++ fs2, left)
      else if st.eventType = "content_block_delta" then
        let (fs2, left) := asgConvert model now st rest
        (asgHandleContentDelta model now data st ++ fs2, left)
      else if st.eventType = "message_delta" then
        let (fs2, left) := asgConvert model now st rest
        (asgHandleMessageDelta model now data st ++ fs2, left)
      else if st.eventType = "message_stop" then ([Frame.done], rest)
      else asgConvert model now st rest
    else if l = "" then asgConvert model now { st with eventType := "" } rest
    else asgConvert model now st rest

/-- Writer events of the `[DONE]` sentinel in the azure converters (write
then flush). -/
def azDoneEvents : List OutEv := [.write "data: [DONE]\n\n", .flush]

/-- Content chunk of `StreamingResponseConverter.handleTextDelta`. -/
def srcDeltaChunk (model delta : String) (now : Int) : Json :=
  .obj [("id", .str ("chatcmpl-" ++ intToStr now)),
        ("object", .str "chat.completion.chunk"),
        ("created", .num now 0 true), ("model", .str model),
        ("choices", .arr [.obj [("index", .num 0 0 true),
                                ("delta", .obj [("content", .str delta)]),
                                ("finish_reason", .null)]])]

/-- Final chunk of `StreamingResponseConverter.handleCompleted`. -/
def srcDoneChunk (model : String) (now : Int) : Json :=
  .obj [("id", .str ("chatcmpl-" ++ intToStr now)),
        ("object", .str "chat.completion.chunk"),
        ("created", .num now 0 true), ("model", .str model),
        ("choices", .arr [.obj [("index", .num 0 0 true),
                                ("delta", .obj []),
                                ("finish_reason", .str "stop")]])]

/-- `StreamingResponseConverter.handleTextDelta`: the top-level `delta`
field must be a string (even an empty one is emitted). -/
def srcHandleTextDelta (model : String) (now : Int) (data : String) : List Frame :=
  match parseObjOrNull data with
  | none => []
  | some kvs =>
    match objGetL kvs "delta" with
    | some (.str d) => [Frame.chunk (srcDeltaChunk model d now)]
    | _ => []

/-- `StreamingResponseConverter.Convert` (streaming.go): the Responses
API to chat-completions SSE conversion; its state is the current event
name. -/
def srcConvert (model : String) (now : Int) :
    String → List String → List Frame × List String
  | _, [] => ([], [])
  | et, l :: rest =>
    if strStarts l "event:" then
      srcConvert model now (strTrim (dropPre l "event:")) rest
    else if strStarts l "data:" then
      let data := strTrim (dropPre l "data:")
      if et = "response.output_text.delta" then
        let (fs2, left) := srcConvert model now et rest
        (srcHandleTextDelta model now data ++ fs2, left)
      else if et = "response.completed" then
        ([Frame.chunk (srcDoneChunk model now), Frame.done], rest)
      else srcConvert model now et rest
    else if l = "" then srcConvert model now "" rest
    else srcConvert model now et rest

/-- Content chunk of the part-007 `AnthropicStreamingConverter.handleDelta`. -/
def aspDeltaChunk (model text : String) (now : Int) : Json :=
  .obj [("id", .str ("chatcmpl-" ++ intToStr now)),
        ("object", .str "chat.completion.chunk"),
        ("created", .num now 0 true), ("model", .str model),
        ("choices", .arr [.obj [("index", .num 0 0 true),
                                ("delta", .obj [("content", .str text)]),
                                ("finish_reason", .null)]])]

/-- Final chunk of the part-007 `AnthropicStreamingConverter.handleStop`. -/
def aspStopChunk (model : String) (now : Int) : Json :=
  .obj [("id", .str ("chatcmpl-" ++ intToStr now)),
        ("object", .str "chat.completion.chunk"),
        ("created", .num now 0 true), ("model", .str model),
        ("choices", .arr [.obj [("index", .num 0 0 true),
                                ("delta", .obj []),
                                ("finish_reason", .str "stop")]])]

/-- `handleDelta` of the part-007 converter variant. -/
def aspHandleDelta (model : String) (now : Int) (data : String) : List Frame :=
  match parseObjOrNull data with
  | none => []
  | some kvs =>
    let text :=
      match objGetL kvs "delta" with
      | some (.obj dkvs) =>
        (match objGetL dkvs "text" with
         | some (.str t) => t
         | _ => "")
      | _ => ""
    if text = "" then [] else [Frame.chunk (aspDeltaChunk model text now)]

/-- `AnthropicStreamingConverter.Convert` (part-007 variant): only
`content_block_delta` and `message_stop` are handled, the loop never
returns early, and blank lines do not reset the event name. -/
def aspConvert (model : String) (now : Int) : String → List String → List Frame
  | _, [] => []
  | et, l :: rest =>
    if strStarts l "event:" then
      aspConvert model now (strTrim (dropPre l "event:")) rest
    else if strStarts l "data:" then
      let data := strTrim (dropPre l "data:")
      if et = "content_block_delta" then
        aspHandleDelta model now data ++ aspConvert model now et rest
      else if et = "message_stop" then
        Frame.chunk (aspStopChunk model now) :: Frame.done :: aspConvert model now et rest
      else aspConvert model now et rest
    else aspConvert model now et rest

end Az

/-- Delta object of a chunk's single choice (for stating frame shapes). -/
def chunkDelta (j : Json) : Option Json :=
  match jGet j "choices" with
  | some (.arr [c]) => jGet c "delta"
  | _ => none

/-- Finish reason of a chunk's single choice. -/
def chunkFinish (j : Json) : Option Json :=
  match jGet j "choices" with
  | some (.arr [c]) => jGet c "finish_reason"
  | _ => none

/-- Is a frame a chunk (as opposed to the `[DONE]` sentinel)? -/
def isChunkF : Frame → Bool
  | .chunk _ => true
  | .done => false

/-- Invariant of every emitted chunk: its `object` field is
"chat.completion.chunk", its `choices` array has exactly one element with
index 0, and its compact JSON contains no newline (it fits on a single
`data: ` line). -/
def chunkOk (j : Json) : Prop :=
  jGet j "object" = some (.str "chat.completion.chunk") ∧
  (∃ c, jGet j "choices" = some (.arr [c]) ∧ jGet c "index" = some (.num 0 0 true)) ∧
  '\n' ∉ (jserialize j).data

/-- Stated from the spec's words for claim C4: the concatenation of the
text of all text-typed content blocks, in original order. -/
def specConcatTexts : List Anthro.ContentItem → String
  | [] => ""
  | item :: rest =>
    (if item.type = "text" then item.text else "") ++ specConcatTexts rest

/-- The per-message conversion applied by the message loop of
`convertOpenAIRequestToAnthropic` to a kept (non-system) message. -/
def convMsgAz (m : Json) : Az.AnthMsg :=
  let r := Az.msgRoleLower m
  ⟨if r = "tool" then "assistant" else r,
   Az.convertContentToBlocks (jGet m "content")⟩

/-- A raw client message that the message loop of
`convertOpenAIRequestToAnthropic` keeps: an object whose lower-cased role
is user, assistant or tool, with at least one non-empty content block. -/
def keptMsgB : Json → Bool
  | .obj kvs =>
    (Az.msgRoleLower (.obj kvs) = "user" || Az.msgRoleLower (.obj kvs) = "assistant" ||
      Az.msgRoleLower (.obj kvs) = "tool") &&
      !(Az.convertContentToBlocks (objGetL kvs "content")).isEmpty
  | _ => false

/-- A `{type: "text", text: x}` content part, as JSON. -/
def textObj (x : String) : Json :=
  .obj [("type", .str "text"), ("text", .str x)]

/-- Reader for `choices[0].message.content` of a converted response. -/
def choiceMessageContent (j : Json) : Option Json :=
  match jGet j "choices" with
  | some (.arr (c :: _)) =>
    (match jGet c "message" with
     | some msg => jGet msg "content"
     | none => none)
  | _ => none

/-- The upstream event line sequence of the streaming scenario of claim
C1: `message_start(id=msg_1)`, two `content_block_delta` texts, and
`message_stop`. -/
def c1Lines : List String :=
  ["event: message_start",
   "data: \x7b\"type\":\"message_start\",\"message\":\x7b\"id\":\"msg_1\"\x7d\x7d",
   "",
   "event: content_block_delta",
   "data: \x7b\"type\":\"content_block_delta\",\"index\":0,\"delta\":\x7b\"type\":\"text_delta\",\"text\":\"Hi\"\x7d\x7d",
   "",
   "event: content_block_delta",
   "data: \x7b\"type\":\"content_block_delta\",\"index\":0,\"delta\":\x7b\"type\":\"text_delta\",\"text\":\" there\"\x7d\x7d",
   "",
   "event: message_stop",
   "data: \x7b\"type\":\"message_stop\"\x7d"]

/-! ## Claim C1 -/

/-- C1 (amended): on the `message_start(id=msg_1)`, `"Hi"`, `" there"`,
`message_stop` event sequence the pkg-`anthropic` `StreamConverter` emits
exactly four client frames in order — a role-only chunk, the two content
chunks, and a chunk with an empty delta and finish_reason "stop" —
followed by the `[DONE]` sentinel, returns, and reads none of the
following lines; no frame before the last has an empty delta.  The azure
`AnthropicStreamingConverter` (streaming.go) on the same sequence emits
only the role chunk and the two content chunks before `[DONE]`: its
finish-reason chunk is driven by a `message_delta` event, which this
sequence does not contain. -/
theorem c1_streaming_scenario :
    (∀ (model : String) (rest : List String),
      Anthro.scConvert model ⟨"", ""⟩ (c1Lines ++ rest) =
        ([.chunk (Anthro.scStartChunk "msg_1" model),
          .chunk (Anthro.scDeltaChunk "msg_1" model "Hi"),
          .chunk (Anthro.scDeltaChunk "msg_1" model " there"),
          .chunk (Anthro.scStopChunk "msg_1" model), Frame.done], rest)) ∧
    (∀ model : String,
      chunkDelta (Anthro.scStartChunk "msg_1" model) = some (.obj [("role", .str "assistant")]) ∧
      chunkDelta (Anthro.scDeltaChunk "msg_1" model "Hi") = some (.obj [("content", .str "Hi")]) ∧
      chunkDelta (Anthro.scDeltaChunk "msg_1" model " there") =
        some (.obj [("content", .str " there")]) ∧
      chunkDelta (Anthro.scStopChunk "msg_1" model) = some (.obj []) ∧
      chunkFinish (Anthro.scStopChunk "msg_1" model) = some (.str "stop") ∧
      some (Json.obj [("role", .str "assistant")]) ≠ some (Json.obj []) ∧
      some (Json.obj [("content", .str "Hi")]) ≠ some (Json.obj []) ∧
      some (Json.obj [("content", .str " there")]) ≠ some (Json.obj [])) ∧
    (∀ (model : String) (now : Int) (rest : List String),
      Az.asgConvert model now ⟨"", ""⟩ (c1Lines ++ rest) =
        ([.chunk (Az.asgStartChunk "msg_1" model now),
          .chunk (Az.asgDeltaChunk "msg_1" model "Hi" now),
          .chunk (Az.asgDeltaChunk "msg_1" model " there" now),
          Frame.done], rest)) := by
  refine ⟨fun model rest => rfl, fun model => ⟨rfl, rfl, rfl, rfl, rfl, ?_, ?_, ?_⟩,
    fun model now rest => rfl⟩ <;> simp

/-- C1 counterexample: the azure `AnthropicStreamingConverter`
(streaming.go), equally cited by the claim, emits three chunks and the
sentinel on the claimed event sequence — there is no fourth chunk with
finish_reason "stop". -/
theorem c1_counterexample :
    (Az.asgConvert "claude-3" 0 ⟨"", ""⟩ c1Lines).1 =
      [Frame.chunk (Az.asgStartChunk "msg_1" "claude-3" 0),
       Frame.chunk (Az.asgDeltaChunk "msg_1" "claude-3" "Hi" 0),
       Frame.chunk (Az.asgDeltaChunk "msg_1" "claude-3" " there" 0),
       Frame.done] ∧
    (Az.asgConvert "claude-3" 0 ⟨"", ""⟩ c1Lines).1.countP isChunkF = 3 ∧
    (3 : Nat) ≠ 4 ∧
    (∀ j, Frame.chunk j ∈ (Az.asgConvert "claude-3" 0 ⟨"", ""⟩ c1Lines).1 →
      chunkFinish j ≠ some (Json.str "stop")) := by
  refine ⟨rfl, rfl, by decide, ?_⟩
  intro j hj
  rw [show (Az.asgConvert "claude-3" 0 ⟨"", ""⟩ c1Lines).1 =
      [Frame.chunk (Az.asgStartChunk "msg_1" "claude-3" 0),
       Frame.chunk (Az.asgDeltaChunk "msg_1" "claude-3" "Hi" 0),
       Frame.chunk (Az.asgDeltaChunk "msg_1" "claude-3" " there" 0),
       Frame.done] from rfl] at hj
  simp only [List.mem_cons, List.not_mem_nil, or_false] at hj
  rcases hj with h | h | h | h <;> first
    | (cases h; intro hc; simp [chunkFinish, jGet, objGetL,
        Az.asgStartChunk, Az.asgDeltaChunk] at hc)
    | (cases h)

/-! ## Claim C3 -/

/-- Lower-casing distributes over concatenation. -/
theorem strToLower_append (a b : String) :
    strToLower (a ++ b) = strToLower a ++ strToLower b := by
  cases a with
  | mk la =>
    cases b with
    | mk lb => exact congrArg String.mk (List.map_append lowerChar la lb)

/-- A concatenation ends with its own suffix. -/
theorem endsWithB_append (a t : String) : endsWithB (a ++ t) t = true := by
  cases a with
  | mk la =>
    cases t with
    | mk lt =>
      show (lt == (la ++ lt).drop ((la ++ lt).length - lt.length)) = true
      have h1 : (la ++ lt).length - lt.length = la.length := by simp
      rw [h1, List.drop_left]
      exact beq_self_eq_true lt

/-- No key of the static model mapper ends in the date `-2025-09-30`. -/
theorem mapperNoDatedKey :
    Az.azureOpenAIModelMapper.all (fun p => !(endsWithB p.1 "-2025-09-30")) = true := by
  decide

/-- A model name carrying the `-2025-09-30` suffix never matches the
mapper table exactly. -/
theorem lookup_dated_none (lm : String) :
    Az.mapLookup Az.azureOpenAIModelMapper (lm ++ "-2025-09-30") = none := by
  unfold Az.mapLookup
  have h : Az.azureOpenAIModelMapper.find? (fun p => p.1 == lm ++ "-2025-09-30") = none := by
    rw [List.find?_eq_none]
    intro p hp
    have hall := mapperNoDatedKey
    rw [List.all_eq_true] at hall
    have h1 := hall p hp
    simp only [Bool.not_eq_true'] at h1
    intro hbeq
    have heq : p.1 = lm ++ "-2025-09-30" := eq_of_beq hbeq
    rw [heq, endsWithB_append] at h1
    cases h1
  rw [h]

/-- Stripping the `-2025-09-30` suffix recovers the bare name. -/
theorem strip_dated (lm : String) :
    Az.stripModelVersion (lm ++ "-2025-09-30") = lm := by
  cases lm with
  | mk l =>
    have hr : (String.mk l ++ "-2025-09-30").data.reverse =
        '0' :: '3' :: '-' :: '9' :: '0' :: '-' :: '5' :: '2' :: '0' :: '2' :: '-' :: l.reverse := by
      show (l ++ "-2025-09-30".data).reverse = _
      rw [List.reverse_append]
      rfl
    simp only [Az.stripModelVersion, hr]
    have hds : Az.dateSuffix11 ('0' :: '3' :: '-' :: '9' :: '0' :: '-' :: '5' :: '2' :: '0' :: '2' :: '-' :: l.reverse) = true := rfl
    rw [if_pos hds]
    show String.mk (l.reverse.drop 0).reverse = String.mk l
    rw [List.drop_zero, List.reverse_reverse]

/-- A string differs from itself with the date suffix appended. -/
theorem self_ne_append_dated (lm : String) : lm ≠ lm ++ "-2025-09-30" := by
  intro h
  have hd : (lm ++ "-2025-09-30").data = lm.data ++ "-2025-09-30".data := rfl
  have hlen := congrArg (fun s : String => s.data.length) h
  simp only [hd, List.length_append] at hlen
  have h11 : ("-2025-09-30" : String).data.length = 11 := rfl
  rw [h11] at hlen
  omega

/-- C3: deployment resolution tries an exact case-insensitive table match,
then a match after stripping one trailing date suffix, then falls back to
the raw model string — it never signals an error — and for every model
whose lower-cased name is in the table, resolving its `-2025-09-30` dated
variant equals resolving the model itself. -/
theorem c3_resolution :
    (∀ (m d : String),
      Az.mapLookup Az.azureOpenAIModelMapper (strToLower m) = some d →
      Az.resolveModelDeployment m = d) ∧
    (∀ (m d : String),
      Az.mapLookup Az.azureOpenAIModelMapper (strToLower m) = none →
      Az.mapLookup Az.azureOpenAIModelMapper (Az.stripModelVersion (strToLower m)) = some d →
      Az.resolveModelDeployment m = d) ∧
    (∀ m : String,
      Az.mapLookup Az.azureOpenAIModelMapper (strToLower m) = none →
      Az.mapLookup Az.azureOpenAIModelMapper (Az.stripModelVersion (strToLower m)) = none →
      Az.resolveModelDeployment m = m) ∧
    (∀ m : String,
      (Az.mapLookup Az.azureOpenAIModelMapper (strToLower m)).isSome = true →
      Az.resolveModelDeployment (m ++ "-2025-09-30") = Az.resolveModelDeployment m) := by
  have hbase : ∀ (m d : String),
      Az.mapLookup Az.azureOpenAIModelMapper (strToLower m) = some d →
      Az.resolveModelDeployment m = d := by
    intro m d h
    simp only [Az.resolveModelDeployment, h]
  refine ⟨hbase, ?_, ?_, ?_⟩
  · intro m d h1 h2
    have hne : Az.stripModelVersion (strToLower m) ≠ strToLower m := by
      intro he
      rw [he, h1] at h2
      cases h2
    simp only [Az.resolveModelDeployment, h1, h2, if_pos hne]
  · intro m h1 h2
    simp only [Az.resolveModelDeployment, h1, h2]
    split <;> rfl
  · intro m hs
    rcases h' : Az.mapLookup Az.azureOpenAIModelMapper (strToLower m) with _ | d
    · rw [h'] at hs; cases hs
    · have hlow : strToLower (m ++ "-2025-09-30") = strToLower m ++ "-2025-09-30" := by
        rw [strToLower_append]; rfl
      have hne : Az.stripModelVersion (strToLower (m ++ "-2025-09-30")) ≠
          strToLower (m ++ "-2025-09-30") := by
        rw [hlow, strip_dated]
        exact self_ne_append_dated (strToLower m)
      have hres : Az.resolveModelDeployment (m ++ "-2025-09-30") = d := by
        simp only [Az.resolveModelDeployment, if_pos hne]
        rw [hlow, lookup_dated_none, strip_dated, h']
      rw [hres, hbase m d h']

/-- C3 witness: `o1` is in the table, and `resolve("o1-2025-09-30")`
equals `resolve("o1")`, both being `o1`. -/
theorem c3_witness :
    (Az.mapLookup Az.azureOpenAIModelMapper (strToLower "o1")).isSome = true ∧
    Az.resolveModelDeployment ("o1" ++ "-2025-09-30") = Az.resolveModelDeployment "o1" ∧
    Az.resolveModelDeployment "o1-2025-09-30" = "o1" := by
  exact ⟨rfl, c3_resolution.2.2.2 "o1" rfl, rfl⟩

/-! ## Claim C6 -/

/-- Three non-empty strings concatenated never give the empty string. -/
theorem append_nl_ne_empty (a x : String) : a ++ "\n" ++ x ≠ "" := by
  intro h
  have hd := congrArg String.data h
  have : (a.data ++ '\n' :: []) ++ x.data = [] := hd
  simp at this

/-- Extraction of a single `{type: "text", text: x}` part returns its
text. -/
theorem extract_textObj (x : String) :
    Anthro.extractMessageContent (textObj x) = x := by
  rw [textObj, Anthro.extractMessageContent]
  rfl

/-- The builder loop of `extractMessageContent` on an array of text parts
whose texts are non-empty and trim-stable: newline-joined texts, appended
to a non-empty accumulator with a newline. -/
theorem extractParts_textObjs :
    ∀ (xs : List String) (acc : String),
      (∀ x ∈ xs, x ≠ "" ∧ strTrim x = x) →
      Anthro.extractParts (xs.map textObj) acc =
        if xs.isEmpty then acc
        else if acc = "" then goStringsJoin "\n" xs
        else acc ++ "\n" ++ goStringsJoin "\n" xs := by
  intro xs
  induction xs with
  | nil => intro acc _; simp [Anthro.extractParts]
  | cons x rest ih =>
    intro acc h
    obtain ⟨hne, htrim⟩ := h x (by simp)
    have hrest : ∀ y ∈ rest, y ≠ "" ∧ strTrim y = y := fun y hy => h y (by simp [hy])
    simp only [List.map_cons, Anthro.extractParts, extract_textObj, htrim]
    rw [if_neg hne]
    by_cases hacc : acc = ""
    · rw [if_pos hacc, ih x hrest]
      cases rest with
      | nil => simp [hacc, goStringsJoin]
      | cons y r => simp [hacc, hne, goStringsJoin]
    · rw [if_neg hacc, ih (acc ++ "\n" ++ x) hrest]
      cases rest with
      | nil => simp [hacc, goStringsJoin]
      | cons y r =>
        have hne2 : acc ++ "\n" ++ x ≠ "" := append_nl_ne_empty acc x
        have hne2' : acc ++ ("\n" ++ x) ≠ "" := by
          rw [← String.append_assoc]; exact append_nl_ne_empty acc x
        simp [hacc, hne2, hne2', goStringsJoin, String.append_assoc]

/-- Array of text parts with non-empty texts: the blocks are exactly the
texts. -/
theorem blocks_textObjs :
    ∀ xs : List String, (∀ x ∈ xs, x ≠ "") →
      (xs.map textObj).filterMap Az.blockOfItem = xs := by
  intro xs
  induction xs with
  | nil => intro _; rfl
  | cons x rest ih =>
    intro h
    have hne := h x (by simp)
    have hrest : ∀ y ∈ rest, y ≠ "" := fun y hy => h y (by simp [hy])
    simp only [List.map_cons, List.filterMap_cons]
    have hb : Az.blockOfItem (textObj x) = some x := by
      simp [Az.blockOfItem, textObj, Az.normalizeContentBlock, objGetL, hne]
    rw [hb, ih hrest]

/-- C6 (amended): plain-string content passes through both normalizers
unchanged; an array of `{type:"text", text:X}` parts normalizes to the
newline-join of the `X`s provided every `X` is non-empty (and, for the
pkg-`anthropic` extractor, unchanged by whitespace trimming) — empty
parts are dropped and the extractor trims each piece, which is what the
counterexample exhibits. -/
theorem c6_normalize_amended :
    (∀ s : String, Anthro.extractMessageContent (.str s) = s) ∧
    (∀ s : String, Az.flattenContentToString (some (.str s)) = s) ∧
    (∀ xs : List String, (∀ x ∈ xs, x ≠ "" ∧ strTrim x = x) →
      Anthro.extractMessageContent (.arr (xs.map textObj)) = goStringsJoin "\n" xs) ∧
    (∀ xs : List String, (∀ x ∈ xs, x ≠ "") →
      Az.flattenContentToString (some (.arr (xs.map textObj))) = goStringsJoin "\n" xs) := by
  refine ⟨fun s => by rw [Anthro.extractMessageContent], ?_, ?_, ?_⟩
  · intro s
    by_cases hs : s = "" <;>
      simp [Az.flattenContentToString, Az.convertContentToBlocks, hs, goStringsJoin]
  · intro xs h
    have he : Anthro.extractMessageContent (.arr (xs.map textObj)) =
        Anthro.extractParts (xs.map textObj) "" := by
      rw [Anthro.extractMessageContent]
    rw [he, extractParts_textObjs xs "" h]
    cases xs with
    | nil => rfl
    | cons x rest => simp
  · intro xs h
    simp only [Az.flattenContentToString, Az.convertContentToBlocks, blocks_textObjs xs h]
    cases xs with
    | nil => rfl
    | cons x rest => simp [h x (by simp)]

/-- C6 counterexample: on the array `[{type:"text",text:"a"},
{type:"text",text:""}]` both normalizers return `"a"`, not the
newline-join `"a\n"` of the `X` values that the claim requires. -/
theorem c6_counterexample :
    Anthro.extractMessageContent (.arr [textObj "a", textObj ""]) = "a" ∧
    Az.flattenContentToString (some (.arr [textObj "a", textObj ""])) = "a" ∧
    goStringsJoin "\n" ["a", ""] = "a\n" ∧ ("a" : String) ≠ "a\n" := by
  refine ⟨?_, rfl, rfl, by decide⟩
  simp [Anthro.extractMessageContent, Anthro.extractParts, extract_textObj,
    show strTrim "a" = "a" from rfl, show strTrim "" = "" from rfl,
    show ¬("a" : String) = "" from by decide]

/-- C6 witness: the amended statement applied to the concrete array
`[{text:"hello"}, {text:"world"}]` and the concrete string "keep  me". -/
theorem c6_witness :
    Anthro.extractMessageContent (.str "keep  me") = "keep  me" ∧
    Anthro.extractMessageContent (.arr (["hello", "world"].map textObj)) =
      goStringsJoin "\n" ["hello", "world"] ∧
    Az.flattenContentToString (some (.arr (["hello", "world"].map textObj))) =
      goStringsJoin "\n" ["hello", "world"] ∧
    goStringsJoin "\n" ["hello", "world"] = "hello\nworld" := by
  refine ⟨c6_normalize_amended.1 "keep  me",
    c6_normalize_amended.2.2.1 ["hello", "world"] ?_,
    c6_normalize_amended.2.2.2 ["hello", "world"] ?_, rfl⟩
  · intro x hx
    simp only [List.mem_cons, List.not_mem_nil, or_false] at hx
    rcases hx with rfl | rfl
    · exact ⟨by decide, rfl⟩
    · exact ⟨by decide, rfl⟩
  · intro x hx
    simp only [List.mem_cons, List.not_mem_nil, or_false] at hx
    rcases hx with rfl | rfl
    · decide
    · decide

/-! ## Claim C4 -/

/-- The content fold of `ConvertAnthropicToOpenAI` appends exactly the
texts of the text-typed blocks, in order. -/
theorem foldl_concat_texts :
    ∀ (items : List Anthro.ContentItem) (acc : String),
      items.foldl (fun acc item => if item.type = "text" then acc ++ item.text else acc) acc =
        acc ++ specConcatTexts items := by
  intro items
  induction items with
  | nil => intro acc; simp [specConcatTexts]
  | cons i rest ih =>
    intro acc
    simp only [List.foldl_cons, specConcatTexts]
    by_cases hi : i.type = "text"
    · rw [if_pos hi, if_pos hi, ih, String.append_assoc]
    · rw [if_neg hi, if_neg hi, ih]
      have h0 : (("" : String) ++ specConcatTexts rest) = specConcatTexts rest := rfl
      rw [h0]

/-- C4 (amended): the pkg-`anthropic` non-streaming converter's
`choices[0].message.content` is exactly the concatenation of the texts of
all text-typed content blocks, in order; the azure-side
`convertAnthropicToChatCompletion` instead returns only the text of the
first content block (the counterexample exhibits the difference). -/
theorem c4_content_concatenation :
    (∀ r : Anthro.MessagesResponse, ∃ ch : Anthro.ChatChoice,
      (Anthro.convertAnthropicToOpenAI r).choices = [ch] ∧
      ch.message.content = specConcatTexts r.content) ∧
    (∀ (now : Int) (model : String) (kvs fkvs : List (String × Json))
      (t : String) (restBlocks : List Json),
      objGetL kvs "content" = some (.arr (Json.obj fkvs :: restBlocks)) →
      objGetL fkvs "text" = some (.str t) →
      choiceMessageContent (Az.convertAnthropicToChatCompletionJson now model kvs) =
        some (.str t)) := by
  constructor
  · intro r
    refine ⟨⟨0, ⟨"assistant",
      specConcatTexts r.content⟩, Anthro.mapStopReason r.stop_reason⟩, ?_, rfl⟩
    show [(⟨0, ⟨"assistant",
      r.content.foldl (fun acc item => if item.type = "text" then acc ++ item.text else acc) ""⟩,
      Anthro.mapStopReason r.stop_reason⟩ : Anthro.ChatChoice)] = _
    rw [foldl_concat_texts]
    rfl
  · intro now model kvs fkvs t restBlocks h1 h2
    have hc : Az.azureAnthropicContent kvs = t := by
      unfold Az.azureAnthropicContent
      rw [h1]
      show (match objGetL fkvs "text" with
            | some (Json.str t) => t
            | _ => "") = t
      rw [h2]
    show some (Json.str (Az.azureAnthropicContent kvs)) = some (Json.str t)
    rw [hc]

/-- C4 counterexample: an upstream response with the two text blocks
"Hello" and "World" converts, through the azure
`convertAnthropicToChatCompletion`, to a client response whose
`choices[0].message.content` is "Hello", not the concatenation
"HelloWorld" that the claim requires. -/
theorem c4_counterexample :
    choiceMessageContent (Az.convertAnthropicToChatCompletionJson 0 "claude-3"
      [("id", .str "msg_1"), ("content", .arr [textObj "Hello", textObj "World"])]) =
      some (.str "Hello") ∧
    specConcatTexts [⟨"text", "Hello"⟩, ⟨"text", "World"⟩] = "HelloWorld" ∧
    some (Json.str "Hello") ≠ some (Json.str "HelloWorld") := by
  refine ⟨rfl, rfl, fun h => ?_⟩
  exact absurd (Json.str.inj (Option.some.inj h)) (by decide)

/-- C4 witness: the amended statement applied to a concrete two-block
response and a concrete azure-side first-block response. -/
theorem c4_witness :
    (∃ ch : Anthro.ChatChoice,
      (Anthro.convertAnthropicToOpenAI
        ⟨"msg_1", "message", "assistant", [⟨"text", "Hel"⟩, ⟨"text", "lo"⟩],
         "claude-3", "end_turn", "", ⟨3, 4⟩⟩).choices = [ch] ∧
      ch.message.content =
        specConcatTexts [⟨"text", "Hel"⟩, ⟨"text", "lo"⟩]) ∧
    choiceMessageContent (Az.convertAnthropicToChatCompletionJson 7 "claude-3"
      [("content", .arr [textObj "Hi"])]) = some (.str "Hi") := by
  exact ⟨c4_content_concatenation.1 _,
    c4_content_concatenation.2 7 "claude-3" _ _ "Hi" [] rfl rfl⟩

/-! ## Claim C5 -/

/-- The message loop accumulates no system prompt when no message has the
system role. -/
theorem processOAIMessages_no_system :
    ∀ msgs : List Json, (∀ m ∈ msgs, Az.msgRoleLower m ≠ "system") →
      (Az.processOAIMessages msgs).1 = [] := by
  intro msgs
  induction msgs with
  | nil => intro _; rfl
  | cons raw rest ih =>
    intro h
    have hrest := fun m hm => h m (List.mem_cons_of_mem _ hm)
    have hraw := h raw (List.mem_cons_self _ _)
    have hsys := ih hrest
    simp only [Az.processOAIMessages]
    rcases hp : Az.processOAIMessages rest with ⟨sys, msgs2⟩
    rw [hp] at hsys
    simp only at hsys
    subst hsys
    cases raw with
    | obj mkvs =>
      simp only [Az.msgRoleLower] at hraw
      simp only [hraw, if_false, if_neg hraw]
      split_ifs <;> rfl
    | null => rfl
    | bool b => rfl
    | num m e il => rfl
    | str s => rfl
    | arr xs => rfl

/-- The gjson message fold leaves the system text unchanged when no
message carries the system role. -/
theorem ctam_fold_no_system :
    ∀ (msgs : List Json) (s0 : String) (a0 : List Json),
      (∀ m ∈ msgs, Az.gjsonString (jGet m "role") ≠ "system") →
      (msgs.foldl Az.ctamStep (s0, a0)).1 = s0 := by
  intro msgs
  induction msgs with
  | nil => intro s0 a0 _; rfl
  | cons m rest ih =>
    intro s0 a0 h
    have hm := h m (List.mem_cons_self _ _)
    have hrest := fun x hx => h x (List.mem_cons_of_mem _ hx)
    simp only [List.foldl_cons]
    rw [show Az.ctamStep (s0, a0) m =
        (s0, a0 ++ [Json.obj [("role", .str (Az.gjsonString (jGet m "role"))),
                              ("content", .str (Az.gjsonString (jGet m "content")))]]) from by
      simp only [Az.ctamStep, if_neg hm]]
    exact ih s0 _ hrest

/-- C5 (amended): in the claude-path converter
`convertOpenAIRequestToAnthropic`, an absent or non-positive `max_tokens`
becomes the default 1024, and a request with no system message produces
no `system` field.  In the gjson-based `convertChatToAnthropicMessages`
the default is 1000 and applies only when the extracted `max_tokens` is
exactly 0 (absent included); a request with no `input` and no system
message produces no `system` field there either.  A negative `max_tokens`
passes through the gjson converter unchanged — the counterexample. -/
theorem c5_defaults :
    (∀ (payload : List (String × Json)) (body : Az.MessagesBody),
      Az.convertOpenAIRequestToAnthropic payload = some body →
      Az.getIntFromInterface (objGetL payload "max_tokens") ≤ 0 →
      body.max_tokens = 1024) ∧
    (∀ (payload : List (String × Json)) (msgsRaw : List Json) (body : Az.MessagesBody),
      objGetL payload "messages" = some (.arr msgsRaw) →
      (∀ m ∈ msgsRaw, Az.msgRoleLower m ≠ "system") →
      Az.convertOpenAIRequestToAnthropic payload = some body →
      body.system = none) ∧
    (∀ (model : String) (kvs : List (String × Json)),
      Az.gjsonInt (objGetL kvs "max_tokens") = 0 →
      jGet (Az.convertChatToAnthropicMessagesBody model kvs) "max_tokens" =
        some (.num 1000 0 true)) ∧
    (∀ (model : String) (kvs : List (String × Json)),
      Az.gjsonString (objGetL kvs "input") = "" →
      (∀ m ∈ Az.gjsonArray (objGetL kvs "messages"),
        Az.gjsonString (jGet m "role") ≠ "system") →
      jGet (Az.convertChatToAnthropicMessagesBody model kvs) "system" = none) := by
  refine ⟨?_, ?_, ?_, ?_⟩
  · intro payload body h hmt
    unfold Az.convertOpenAIRequestToAnthropic at h
    split at h
    · rename_i msgsRaw heq
      by_cases he : msgsRaw.isEmpty
      · rw [if_pos he] at h; cases h
      · rw [if_neg he] at h
        rcases hp : Az.processOAIMessages msgsRaw with ⟨sysList, msgs0⟩
        simp only [hp] at h
        by_cases h0 : msgs0.isEmpty
        · rw [if_pos h0] at h; cases h
        · rw [if_neg h0] at h
          have hb := Option.some.inj h
          rw [← hb]
          simp only [if_pos hmt]
    · cases h
  · intro payload msgsRaw body hm hnosys h
    unfold Az.convertOpenAIRequestToAnthropic at h
    split at h
    · rename_i msgsRaw2 heq
      rw [hm] at heq
      have hmr : msgsRaw2 = msgsRaw := by
        have := Option.some.inj heq
        exact (Json.arr.inj this).symm
      rw [hmr] at h
      by_cases he : msgsRaw.isEmpty
      · rw [if_pos he] at h; cases h
      · rw [if_neg he] at h
        have hsl := processOAIMessages_no_system msgsRaw hnosys
        rcases hp : Az.processOAIMessages msgsRaw with ⟨sysList, msgs0⟩
        simp only [hp] at h
        rw [hp] at hsl
        simp only at hsl
        subst hsl
        by_cases h0 : msgs0.isEmpty
        · rw [if_pos h0] at h; cases h
        · rw [if_neg h0] at h
          have hb := Option.some.inj h
          rw [← hb]
          simp
    · cases h
  · intro model kvs h
    simp only [Az.convertChatToAnthropicMessagesBody, h]
    split_ifs <;> rfl
  · intro model kvs hinput hnosys
    have hfold := ctam_fold_no_system (Az.gjsonArray (objGetL kvs "messages")) "" [] hnosys
    simp only [Az.convertChatToAnthropicMessagesBody, hinput, hfold, ne_eq,
      eq_self_iff_true, not_true, if_false]
    split_ifs <;> rfl

/-- C5 counterexample: the gjson-based converter passes a negative
`max_tokens` (-5) through unchanged — it equals neither its own default
1000 nor the claude-path default 1024, refuting "absent or non-positive
becomes the fixed default" for this cited converter. -/
theorem c5_counterexample :
    jGet (Az.convertChatToAnthropicMessagesBody "claude-3"
      [("model", .str "m"),
       ("messages", .arr [Json.obj [("role", .str "user"), ("content", .str "Hello")]]),
       ("max_tokens", .num (-5) 0 true),
       ("stream", .bool false)]) "max_tokens" = some (.num (-5) 0 true) ∧
    Az.gjsonInt (some (.num (-5) 0 true)) ≤ 0 ∧
    (-5 : Int) ≠ 1000 ∧ (-5 : Int) ≠ 1024 := by
  exact ⟨rfl, by decide, by decide, by decide⟩

/-- C5 witness: the claim's scenario body (a single user message, no
`max_tokens`, no system message) through both converters. -/
theorem c5_witness :
    (∃ body : Az.MessagesBody,
      Az.convertOpenAIRequestToAnthropic
        [("model", .str "m"),
         ("messages", .arr [Json.obj [("role", .str "user"), ("content", .str "Hello")]]),
         ("stream", .bool false)] = some body ∧
      body.max_tokens = 1024 ∧ body.system = none) ∧
    jGet (Az.convertChatToAnthropicMessagesBody "m"
      [("model", .str "m"),
       ("messages", .arr [Json.obj [("role", .str "user"), ("content", .str "Hello")]]),
       ("stream", .bool false)]) "max_tokens" = some (.num 1000 0 true) ∧
    jGet (Az.convertChatToAnthropicMessagesBody "m"
      [("model", .str "m"),
       ("messages", .arr [Json.obj [("role", .str "user"), ("content", .str "Hello")]]),
       ("stream", .bool false)]) "system" = none := by
  have hmem : ∀ m ∈ [Json.obj [("role", Json.str "user"), ("content", Json.str "Hello")]],
      Az.msgRoleLower m ≠ "system" := by
    intro m hm
    simp only [List.mem_cons, List.not_mem_nil, or_false] at hm
    subst hm
    decide
  have hmem2 : ∀ m ∈ Az.gjsonArray (objGetL
      [("model", Json.str "m"),
       ("messages", Json.arr [Json.obj [("role", Json.str "user"), ("content", Json.str "Hello")]]),
       ("stream", Json.bool false)] "messages"),
      Az.gjsonString (jGet m "role") ≠ "system" := by
    intro m hm
    have hm2 : m ∈ [Json.obj [("role", Json.str "user"), ("content", Json.str "Hello")]] := hm
    simp only [List.mem_cons, List.not_mem_nil, or_false] at hm2
    subst hm2
    decide
  refine ⟨⟨_, rfl,
      c5_defaults.1
        [("model", .str "m"),
         ("messages", .arr [Json.obj [("role", .str "user"), ("content", .str "Hello")]]),
         ("stream", .bool false)] _ rfl (by decide),
      c5_defaults.2.1
        [("model", .str "m"),
         ("messages", .arr [Json.obj [("role", .str "user"), ("content", .str "Hello")]]),
         ("stream", .bool false)]
        [Json.obj [("role", .str "user"), ("content", .str "Hello")]] _ rfl hmem rfl⟩,
    c5_defaults.2.2.1 "m" _ rfl,
    c5_defaults.2.2.2 "m" _ rfl hmem2⟩

/-! ## Claim C2 -/

/-- A message with the system role contributes nothing to the kept-message
list of the message loop. -/
theorem processOAIMessages_cons_system (m : Json) (rest : List Json)
    (hm : Az.msgRoleLower m = "system") :
    (Az.processOAIMessages (m :: rest)).2 = (Az.processOAIMessages rest).2 := by
  cases m with
  | obj mkvs =>
    simp only [Az.msgRoleLower] at hm
    rcases hp : Az.processOAIMessages rest with ⟨sys, msgs⟩
    simp only [Az.processOAIMessages, hp, hm]
    split_ifs <;> simp_all
  | null =>
    rcases hp : Az.processOAIMessages rest with ⟨sys, msgs⟩
    simp only [Az.processOAIMessages, hp]
  | bool b =>
    rcases hp : Az.processOAIMessages rest with ⟨sys, msgs⟩
    simp only [Az.processOAIMessages, hp]
  | num m e il =>
    rcases hp : Az.processOAIMessages rest with ⟨sys, msgs⟩
    simp only [Az.processOAIMessages, hp]
  | str s =>
    rcases hp : Az.processOAIMessages rest with ⟨sys, msgs⟩
    simp only [Az.processOAIMessages, hp]
  | arr xs =>
    rcases hp : Az.processOAIMessages rest with ⟨sys, msgs⟩
    simp only [Az.processOAIMessages, hp]

/-- On a list of kept messages the message loop extracts no system prompt
and converts each message in order. -/
theorem processOAIMessages_kept_snd :
    ∀ msgs : List Json, (∀ m ∈ msgs, keptMsgB m = true) →
      (Az.processOAIMessages msgs).2 = msgs.map convMsgAz := by
  intro msgs
  induction msgs with
  | nil => intro _; rfl
  | cons raw rest ih =>
    intro h
    have hraw := h raw (List.mem_cons_self _ _)
    have hrest := ih (fun m hm => h m (List.mem_cons_of_mem _ hm))
    cases raw with
    | obj mkvs =>
      simp only [keptMsgB, Bool.and_eq_true, Bool.or_eq_true,
        decide_eq_true_eq] at hraw
      obtain ⟨hrole, hblocks⟩ := hraw
      have hb : Az.convertContentToBlocks (objGetL mkvs "content") ≠ [] := by
        intro he
        rw [he] at hblocks
        simp at hblocks
      rcases hp : Az.processOAIMessages rest with ⟨sys, msgs2⟩
      rw [hp] at hrest
      simp only at hrest
      simp only [Az.processOAIMessages, hp, List.map_cons]
      rcases hrole with (h1 | h1) | h1
      · have h1g : strToLower (Az.getStringValue (objGetL mkvs "role")) = "user" := h1
        rw [h1g]
        have hc : convMsgAz (.obj mkvs) =
            ⟨"user", Az.convertContentToBlocks (objGetL mkvs "content")⟩ := by
          show (⟨if Az.msgRoleLower (Json.obj mkvs) = "tool" then "assistant"
                 else Az.msgRoleLower (Json.obj mkvs),
                Az.convertContentToBlocks (jGet (Json.obj mkvs) "content")⟩ :
              Az.AnthMsg) = _
          rw [h1]
          rfl
        rw [hc]
        split_ifs <;> simp_all
      · have h1g : strToLower (Az.getStringValue (objGetL mkvs "role")) = "assistant" := h1
        rw [h1g]
        have hc : convMsgAz (.obj mkvs) =
            ⟨"assistant", Az.convertContentToBlocks (objGetL mkvs "content")⟩ := by
          show (⟨if Az.msgRoleLower (Json.obj mkvs) = "tool" then "assistant"
                 else Az.msgRoleLower (Json.obj mkvs),
                Az.convertContentToBlocks (jGet (Json.obj mkvs) "content")⟩ :
              Az.AnthMsg) = _
          rw [h1]
          rfl
        rw [hc]
        split_ifs <;> simp_all
      · have h1g : strToLower (Az.getStringValue (objGetL mkvs "role")) = "tool" := h1
        rw [h1g]
        have hc : convMsgAz (.obj mkvs) =
            ⟨"assistant", Az.convertContentToBlocks (objGetL mkvs "content")⟩ := by
          show (⟨if Az.msgRoleLower (Json.obj mkvs) = "tool" then "assistant"
                 else Az.msgRoleLower (Json.obj mkvs),
                Az.convertContentToBlocks (jGet (Json.obj mkvs) "content")⟩ :
              Az.AnthMsg) = _
          rw [h1]
          rfl
        rw [hc]
        split_ifs <;> simp_all
    | null => simp [keptMsgB] at hraw
    | bool b => simp [keptMsgB] at hraw
    | num m e il => simp [keptMsgB] at hraw
    | str s => simp [keptMsgB] at hraw
    | arr xs => simp [keptMsgB] at hraw

/-- The user-first rotation on an assistant-then-user list moves the user
turn to the front and shifts the assistant turn right by one. -/
theorem rotateFirstUser_assistant_user (a u : Az.AnthMsg) (rest : List Az.AnthMsg)
    (ha : a.role = "assistant") (hu : u.role = "user") :
    Az.rotateFirstUser (a :: u :: rest) = u :: a :: rest := by
  have h1 : (("assistant" : String) = "user") = False := by simp
  have h2 : (("user" : String) != "user") = false := by simp
  simp only [Az.rotateFirstUser, ha, hu, h1, if_false, List.dropWhile_cons, h2,
    Bool.false_eq_true, ite_false, List.takeWhile_cons, List.nil_append]

/-- C2 (amended): in `convertOpenAIRequestToAnthropic` (claude path), for a
message list of a system message followed by a kept assistant message, a
kept user message and further kept messages, the produced message list is
the user turn first, then the assistant turn, then the remaining messages
in their original order, and its length equals the number of non-system
input messages.  The gjson-based `convertChatToAnthropicMessages` performs
no such rotation — the counterexample. -/
theorem c2_rotation :
    ∀ (payload : List (String × Json)) (sysMsg aMsg uMsg : Json) (rest : List Json)
      (body : Az.MessagesBody),
      objGetL payload "messages" = some (.arr (sysMsg :: aMsg :: uMsg :: rest)) →
      Az.msgRoleLower sysMsg = "system" →
      keptMsgB aMsg = true → Az.msgRoleLower aMsg = "assistant" →
      keptMsgB uMsg = true → Az.msgRoleLower uMsg = "user" →
      (∀ m ∈ rest, keptMsgB m = true) →
      Az.convertOpenAIRequestToAnthropic payload = some body →
      body.messages = convMsgAz uMsg :: convMsgAz aMsg :: rest.map convMsgAz ∧
      (convMsgAz uMsg).role = "user" ∧
      body.messages.length = (aMsg :: uMsg :: rest).length := by
  intro payload sysMsg aMsg uMsg rest body hm hsys hka hra hku hru hrest h
  have hkept : ∀ m ∈ aMsg :: uMsg :: rest, keptMsgB m = true := by
    intro m hm2
    rcases List.mem_cons.mp hm2 with rfl | hm3
    · exact hka
    · rcases List.mem_cons.mp hm3 with rfl | hm4
      · exact hku
      · exact hrest m hm4
  have hproc : (Az.processOAIMessages (sysMsg :: aMsg :: uMsg :: rest)).2 =
      convMsgAz aMsg :: convMsgAz uMsg :: rest.map convMsgAz := by
    rw [processOAIMessages_cons_system sysMsg _ hsys,
      processOAIMessages_kept_snd _ hkept]
    rfl
  have hrolea : (convMsgAz aMsg).role = "assistant" := by
    show (if Az.msgRoleLower aMsg = "tool" then "assistant" else Az.msgRoleLower aMsg) =
      "assistant"
    rw [hra]
    rfl
  have hroleu : (convMsgAz uMsg).role = "user" := by
    show (if Az.msgRoleLower uMsg = "tool" then "assistant" else Az.msgRoleLower uMsg) =
      "user"
    rw [hru]
    rfl
  unfold Az.convertOpenAIRequestToAnthropic at h
  split at h
  · rename_i msgsRaw2 heq
    rw [hm] at heq
    have hmr : msgsRaw2 = sysMsg :: aMsg :: uMsg :: rest :=
      (Json.arr.inj (Option.some.inj heq)).symm
    rw [hmr] at h
    rw [if_neg (by simp)] at h
    rcases hp : Az.processOAIMessages (sysMsg :: aMsg :: uMsg :: rest) with ⟨sysList, msgs0⟩
    simp only [hp] at h
    have hm0 : msgs0 = convMsgAz aMsg :: convMsgAz uMsg :: rest.map convMsgAz := by
      have h2 := congrArg Prod.snd hp
      simp only at h2
      rw [← h2, hproc]
    subst hm0
    rw [if_neg (by simp)] at h
    have hb := Option.some.inj h
    have hrot := rotateFirstUser_assistant_user (convMsgAz aMsg) (convMsgAz uMsg)
      (rest.map convMsgAz) hrolea hroleu
    have hmsgs : body.messages =
        convMsgAz uMsg :: convMsgAz aMsg :: rest.map convMsgAz := by
      rw [← hb]
      exact hrot
    refine ⟨hmsgs, hroleu, ?_⟩
    rw [hmsgs]
    simp [List.length_cons, List.length_map]
  · cases h

/-- C2 counterexample: the gjson-based `convertChatToAnthropicMessages`
keeps system-assistant-user input in source order — the first produced
message still has role "assistant", not "user". -/
theorem c2_counterexample :
    jGet (Az.convertChatToAnthropicMessagesBody "claude-3"
      [("model", .str "m"),
       ("messages", .arr
         [Json.obj [("role", .str "system"), ("content", .str "be brief")],
          Json.obj [("role", .str "assistant"), ("content", .str "A")],
          Json.obj [("role", .str "user"), ("content", .str "U")]]),
       ("max_tokens", .num 5 0 true)]) "messages" =
      some (.arr
        [Json.obj [("role", .str "assistant"), ("content", .str "A")],
         Json.obj [("role", .str "user"), ("content", .str "U")]]) ∧
    ("assistant" : String) ≠ "user" :=
  ⟨rfl, by decide⟩

/-- C2 witness: the rotation theorem at a concrete
system-assistant-user request. -/
theorem c2_witness :
    ∃ body : Az.MessagesBody,
      Az.convertOpenAIRequestToAnthropic
        [("messages", .arr
          [Json.obj [("role", .str "system"), ("content", .str "S")],
           Json.obj [("role", .str "assistant"), ("content", .str "A")],
           Json.obj [("role", .str "user"), ("content", .str "U")]])] = some body ∧
      body.messages =
        [convMsgAz (Json.obj [("role", .str "user"), ("content", .str "U")]),
         convMsgAz (Json.obj [("role", .str "assistant"), ("content", .str "A")])] ∧
      (convMsgAz (Json.obj [("role", .str "user"), ("content", .str "U")])).role = "user" ∧
      body.messages.length = 2 := by
  refine ⟨_, rfl, ?_⟩
  have h := c2_rotation
    [("messages", .arr
      [Json.obj [("role", .str "system"), ("content", .str "S")],
       Json.obj [("role", .str "assistant"), ("content", .str "A")],
       Json.obj [("role", .str "user"), ("content", .str "U")]])]
    (Json.obj [("role", .str "system"), ("content", .str "S")])
    (Json.obj [("role", .str "assistant"), ("content", .str "A")])
    (Json.obj [("role", .str "user"), ("content", .str "U")])
    [] _ rfl rfl (by decide) rfl (by decide) rfl
    (fun m hm => absurd hm (List.not_mem_nil m)) rfl
  exact ⟨h.1, h.2.1, h.2.2⟩

/-! ## Claim C8 -/

/-- C8 (amended): a parsed response body whose `error` field is present
and non-null passes through both response converters byte-for-byte, and
`modifyResponse` leaves every non-event-stream body of a non-200 response
untouched.  A body whose `error` field is present but `null` is however
reshaped — the counterexample. -/
theorem c8_error_passthrough :
    (∀ (now : Int) (model body : String) (kvs : List (String × Json)) (e : Json),
      parseObjOrNull body = some kvs →
      objGetL kvs "error" = some e → e ≠ Json.null →
      Az.convertAnthropicToChatCompletion now model body = body) ∧
    (∀ (now : Int) (contentType body : String) (kvs : List (String × Json)) (e : Json),
      parseObjOrNull body = some kvs →
      objGetL kvs "error" = some e → e ≠ Json.null →
      Az.convertResponsesToChatCompletion now contentType body = body) ∧
    (∀ (now : Int) (contentType urlPath origPath xModel : String) (status : Nat)
      (body : String),
      status ≠ 200 → strStarts contentType "text/event-stream" = false →
      Az.modifyResponseBody now contentType urlPath origPath xModel status body =
        body) := by
  refine ⟨?_, ?_, ?_⟩
  · intro now model body kvs e hparse he hne
    cases e with
    | null => exact absurd rfl hne
    | bool b => simp only [Az.convertAnthropicToChatCompletion, hparse, he]
    | num m e2 il => simp only [Az.convertAnthropicToChatCompletion, hparse, he]
    | str s => simp only [Az.convertAnthropicToChatCompletion, hparse, he]
    | arr xs => simp only [Az.convertAnthropicToChatCompletion, hparse, he]
    | obj okvs => simp only [Az.convertAnthropicToChatCompletion, hparse, he]
  · intro now contentType body kvs e hparse he hne
    by_cases hs : strStarts contentType "text/event-stream" = true
    · simp only [Az.convertResponsesToChatCompletion, hparse, hs, if_true]
    · have hs' : strStarts contentType "text/event-stream" = false :=
        Bool.eq_false_iff.mpr hs
      cases e with
      | null => exact absurd rfl hne
      | bool b =>
        simp only [Az.convertResponsesToChatCompletion, hparse, hs',
          Bool.false_eq_true, if_false, he]
      | num m e2 il =>
        simp only [Az.convertResponsesToChatCompletion, hparse, hs',
          Bool.false_eq_true, if_false, he]
      | str s =>
        simp only [Az.convertResponsesToChatCompletion, hparse, hs',
          Bool.false_eq_true, if_false, he]
      | arr xs =>
        simp only [Az.convertResponsesToChatCompletion, hparse, hs',
          Bool.false_eq_true, if_false, he]
      | obj okvs =>
        simp only [Az.convertResponsesToChatCompletion, hparse, hs',
          Bool.false_eq_true, if_false, he]
  · intro now contentType urlPath origPath xModel status body hstatus hev
    have hb : (status == 200) = false := beq_eq_false_iff_ne.mpr hstatus
    simp only [Az.modifyResponseBody, hev, hb, Bool.false_eq_true, if_false,
      Bool.and_false, Bool.false_and]

/-- C8 counterexample: the body `\x7b"error":null\x7d` carries an `error`
field, yet `convertAnthropicToChatCompletion` reshapes it into a chat
completion instead of passing it through. -/
theorem c8_counterexample :
    parseObjOrNull "\x7b\"error\":null\x7d" = some [("error", Json.null)] ∧
    Az.convertAnthropicToChatCompletion 7 "claude-3" "\x7b\"error\":null\x7d" =
      "\x7b\"choices\":[\x7b\"finish_reason\":\"stop\",\"index\":0,\"logprobs\":null,\"message\":\x7b\"content\":\"\",\"role\":\"assistant\"\x7d\x7d],\"created\":7,\"id\":null,\"model\":\"claude-3\",\"object\":\"chat.completion\",\"system_fingerprint\":null,\"usage\":\x7b\"completion_tokens\":0,\"prompt_tokens\":0,\"total_tokens\":0\x7d\x7d" ∧
    "\x7b\"choices\":[\x7b\"finish_reason\":\"stop\",\"index\":0,\"logprobs\":null,\"message\":\x7b\"content\":\"\",\"role\":\"assistant\"\x7d\x7d],\"created\":7,\"id\":null,\"model\":\"claude-3\",\"object\":\"chat.completion\",\"system_fingerprint\":null,\"usage\":\x7b\"completion_tokens\":0,\"prompt_tokens\":0,\"total_tokens\":0\x7d\x7d"
      ≠ "\x7b\"error\":null\x7d" :=
  ⟨rfl, rfl, by decide⟩

/-- C8 witness: a non-null error body through both converters and a 404
response through the dispatcher, all unchanged. -/
theorem c8_witness :
    Az.convertAnthropicToChatCompletion 7 "m"
      "\x7b\"error\":\x7b\"message\":\"bad\"\x7d\x7d" =
      "\x7b\"error\":\x7b\"message\":\"bad\"\x7d\x7d" ∧
    Az.convertResponsesToChatCompletion 7 "application/json"
      "\x7b\"error\":\x7b\"message\":\"bad\"\x7d\x7d" =
      "\x7b\"error\":\x7b\"message\":\"bad\"\x7d\x7d" ∧
    Az.modifyResponseBody 7 "application/json" "/openai/v1/responses"
      "/v1/chat/completions" "" 404 "\x7b\"error\":\x7b\"message\":\"bad\"\x7d\x7d" =
      "\x7b\"error\":\x7b\"message\":\"bad\"\x7d\x7d" :=
  ⟨c8_error_passthrough.1 7 "m" _ [("error", Json.obj [("message", Json.str "bad")])]
      (Json.obj [("message", Json.str "bad")]) rfl rfl (fun h => Json.noConfusion h),
   c8_error_passthrough.2.1 7 "application/json" _
      [("error", Json.obj [("message", Json.str "bad")])]
      (Json.obj [("message", Json.str "bad")]) rfl rfl (fun h => Json.noConfusion h),
   c8_error_passthrough.2.2 7 "application/json" "/openai/v1/responses"
      "/v1/chat/completions" "" 404 "\x7b\"error\":\x7b\"message\":\"bad\"\x7d\x7d"
      (by decide) rfl⟩

/-! ## Claim C9 -/

/-- C9: in both cited streaming converters an empty or ping data payload
yields no output frame and conversion continues on the remaining lines
unchanged; and a data payload whose JSON fails to decode under a
recognized event type (`message_start`, `content_block_delta`, and for
the streaming.go variant also `message_delta`) is skipped the same way —
the converter neither aborts nor emits a frame for the bad line. -/
theorem c9_skip_and_continue :
    (∀ (model : String) (st : SCState) (l : String) (rest : List String),
      strTrim l ≠ "" → strStarts (strTrim l) "event:" = false →
      strStarts (strTrim l) "data:" = true →
      (strTrim (dropPre (strTrim l) "data:") = "" ∨
        strTrim (dropPre (strTrim l) "data:") = pingLit) →
      Anthro.scConvert model st (l :: rest) = Anthro.scConvert model st rest) ∧
    (∀ (model : String) (st : SCState) (l : String) (rest : List String),
      strTrim l ≠ "" → strStarts (strTrim l) "event:" = false →
      strStarts (strTrim l) "data:" = true →
      strTrim (dropPre (strTrim l) "data:") ≠ "" →
      strTrim (dropPre (strTrim l) "data:") ≠ pingLit →
      st.eventType = "message_start" →
      Anthro.decodeMessageStartData (strTrim (dropPre (strTrim l) "data:")) = none →
      Anthro.scConvert model st (l :: rest) = Anthro.scConvert model st rest) ∧
    (∀ (model : String) (st : SCState) (l : String) (rest : List String),
      strTrim l ≠ "" → strStarts (strTrim l) "event:" = false →
      strStarts (strTrim l) "data:" = true →
      strTrim (dropPre (strTrim l) "data:") ≠ "" →
      strTrim (dropPre (strTrim l) "data:") ≠ pingLit →
      st.eventType = "content_block_delta" →
      Anthro.decodeContentDeltaData (strTrim (dropPre (strTrim l) "data:")) = none →
      Anthro.scConvert model st (l :: rest) = Anthro.scConvert model st rest) ∧
    (∀ (model : String) (now : Int) (st : SCState) (l : String) (rest : List String),
      strStarts l "event:" = false → strStarts l "data:" = true →
      (strTrim (dropPre l "data:") = "" ∨ strTrim (dropPre l "data:") = pingLit) →
      Az.asgConvert model now st (l :: rest) = Az.asgConvert model now st rest) ∧
    (∀ (model : String) (now : Int) (st : SCState) (l : String) (rest : List String),
      strStarts l "event:" = false → strStarts l "data:" = true →
      strTrim (dropPre l "data:") ≠ "" → strTrim (dropPre l "data:") ≠ pingLit →
      st.eventType = "message_start" →
      parseObjOrNull (strTrim (dropPre l "data:")) = none →
      Az.asgConvert model now st (l :: rest) = Az.asgConvert model now st rest) ∧
    (∀ (model : String) (now : Int) (st : SCState) (l : String) (rest : List String),
      strStarts l "event:" = false → strStarts l "data:" = true →
      strTrim (dropPre l "data:") ≠ "" → strTrim (dropPre l "data:") ≠ pingLit →
      st.eventType = "content_block_delta" →
      parseObjOrNull (strTrim (dropPre l "data:")) = none →
      Az.asgConvert model now st (l :: rest) = Az.asgConvert model now st rest) ∧
    (∀ (model : String) (now : Int) (st : SCState) (l : String) (rest : List String),
      strStarts l "event:" = false → strStarts l "data:" = true →
      strTrim (dropPre l "data:") ≠ "" → strTrim (dropPre l "data:") ≠ pingLit →
      st.eventType = "message_delta" →
      parseObjOrNull (strTrim (dropPre l "data:")) = none →
      Az.asgConvert model now st (l :: rest) = Az.asgConvert model now st rest) := by
  refine ⟨?_, ?_, ?_, ?_, ?_, ?_, ?_⟩
  · intro model st l rest h1 h2 h3 h4
    have hnev : ¬ (strStarts (strTrim l) "event:" = true) := by simp [h2]
    have hdata : (decide (strTrim (dropPre (strTrim l) "data:") = "") ||
        decide (strTrim (dropPre (strTrim l) "data:") = pingLit)) = true := by
      rcases h4 with h | h <;> simp [h]
    simp only [Anthro.scConvert, if_neg h1, if_neg hnev, if_pos h3, hdata, if_true]
  · intro model st l rest h1 h2 h3 h5 h6 hev hdec
    have hnev : ¬ (strStarts (strTrim l) "event:" = true) := by simp [h2]
    have hdata : ¬ ((decide (strTrim (dropPre (strTrim l) "data:") = "") ||
        decide (strTrim (dropPre (strTrim l) "data:") = pingLit)) = true) := by
      simp [h5, h6]
    have hh : Anthro.scHandleMessageStart model
        (strTrim (dropPre (strTrim l) "data:")) st = ([], st) := by
      simp only [Anthro.scHandleMessageStart, hdec]
    simp only [Anthro.scConvert, if_neg h1, if_neg hnev, if_pos h3, if_neg hdata,
      if_pos hev, hh]
    rcases hr : Anthro.scConvert model st rest with ⟨fs2, left⟩
    simp only [hr, List.nil_append]
  · intro model st l rest h1 h2 h3 h5 h6 hev hdec
    have hnev : ¬ (strStarts (strTrim l) "event:" = true) := by simp [h2]
    have hdata : ¬ ((decide (strTrim (dropPre (strTrim l) "data:") = "") ||
        decide (strTrim (dropPre (strTrim l) "data:") = pingLit)) = true) := by
      simp [h5, h6]
    have hnev2 : ¬ (st.eventType = "message_start") := by
      rw [hev]; decide
    have hh : Anthro.scHandleContentDelta model
        (strTrim (dropPre (strTrim l) "data:")) st = [] := by
      simp only [Anthro.scHandleContentDelta, hdec]
    simp only [Anthro.scConvert, if_neg h1, if_neg hnev, if_pos h3, if_neg hdata,
      if_neg hnev2, if_pos hev, hh]
    rcases hr : Anthro.scConvert model st rest with ⟨fs2, left⟩
    simp only [hr, List.nil_append]
  · intro model now st l rest h2 h3 h4
    have hnev : ¬ (strStarts l "event:" = true) := by simp [h2]
    have hdata : (decide (strTrim (dropPre l "data:") = "") ||
        decide (strTrim (dropPre l "data:") = pingLit)) = true := by
      rcases h4 with h | h <;> simp [h]
    simp only [Az.asgConvert, if_neg hnev, if_pos h3, hdata, if_true]
  · intro model now st l rest h2 h3 h5 h6 hev hdec
    have hnev : ¬ (strStarts l "event:" = true) := by simp [h2]
    have hdata : ¬ ((decide (strTrim (dropPre l "data:") = "") ||
        decide (strTrim (dropPre l "data:") = pingLit)) = true) := by
      simp [h5, h6]
    have hh : Az.asgHandleMessageStart model now (strTrim (dropPre l "data:")) st =
        ([], st) := by
      simp only [Az.asgHandleMessageStart, hdec]
    simp only [Az.asgConvert, if_neg hnev, if_pos h3, if_neg hdata, if_pos hev, hh]
    rcases hr : Az.asgConvert model now st rest with ⟨fs2, left⟩
    simp only [hr, List.nil_append]
  · intro model now st l rest h2 h3 h5 h6 hev hdec
    have hnev : ¬ (strStarts l "event:" = true) := by simp [h2]
    have hdata : ¬ ((decide (strTrim (dropPre l "data:") = "") ||
        decide (strTrim (dropPre l "data:") = pingLit)) = true) := by
      simp [h5, h6]
    have hnev2 : ¬ (st.eventType = "message_start") := by rw [hev]; decide
    have hh : Az.asgHandleContentDelta model now (strTrim (dropPre l "data:")) st =
        [] := by
      simp only [Az.asgHandleContentDelta, hdec]
    simp only [Az.asgConvert, if_neg hnev, if_pos h3, if_neg hdata, if_neg hnev2,
      if_pos hev, hh]
    rcases hr : Az.asgConvert model now st rest with ⟨fs2, left⟩
    simp only [hr, List.nil_append]
  · intro model now st l rest h2 h3 h5 h6 hev hdec
    have hnev : ¬ (strStarts l "event:" = true) := by simp [h2]
    have hdata : ¬ ((decide (strTrim (dropPre l "data:") = "") ||
        decide (strTrim (dropPre l "data:") = pingLit)) = true) := by
      simp [h5, h6]
    have hnev2 : ¬ (st.eventType = "message_start") := by rw [hev]; decide
    have hnev3 : ¬ (st.eventType = "content_block_delta") := by rw [hev]; decide
    have hh : Az.asgHandleMessageDelta model now (strTrim (dropPre l "data:")) st =
        [] := by
      simp only [Az.asgHandleMessageDelta, hdec]
    simp only [Az.asgConvert, if_neg hnev, if_pos h3, if_neg hdata, if_neg hnev2,
      if_neg hnev3, if_pos hev, hh]
    rcases hr : Az.asgConvert model now st rest with ⟨fs2, left⟩
    simp only [hr, List.nil_append]

/-- C9 witness: an empty data payload, a ping payload and malformed JSON
under each recognized event type, each skipped by the concrete
converters. -/
theorem c9_witness :
    Anthro.scConvert "m" ⟨"", "id0"⟩ ["data:", "x"] =
      Anthro.scConvert "m" ⟨"", "id0"⟩ ["x"] ∧
    Anthro.scConvert "m" ⟨"", "id0"⟩ ["data: \x7b\"type\": \"ping\"\x7d"] =
      Anthro.scConvert "m" ⟨"", "id0"⟩ [] ∧
    Anthro.scConvert "m" ⟨"message_start", "id0"⟩ ["data: \x7bbad", "x"] =
      Anthro.scConvert "m" ⟨"message_start", "id0"⟩ ["x"] ∧
    Anthro.scConvert "m" ⟨"content_block_delta", "id0"⟩ ["data: \x7bbad", "x"] =
      Anthro.scConvert "m" ⟨"content_block_delta", "id0"⟩ ["x"] ∧
    Az.asgConvert "m" 7 ⟨"", "id0"⟩ ["data: \x7b\"type\": \"ping\"\x7d", "x"] =
      Az.asgConvert "m" 7 ⟨"", "id0"⟩ ["x"] ∧
    Az.asgConvert "m" 7 ⟨"message_start", "id0"⟩ ["data: \x7bbad"] =
      Az.asgConvert "m" 7 ⟨"message_start", "id0"⟩ [] ∧
    Az.asgConvert "m" 7 ⟨"content_block_delta", "id0"⟩ ["data: \x7bbad"] =
      Az.asgConvert "m" 7 ⟨"content_block_delta", "id0"⟩ [] ∧
    Az.asgConvert "m" 7 ⟨"message_delta", "id0"⟩ ["data: \x7bbad"] =
      Az.asgConvert "m" 7 ⟨"message_delta", "id0"⟩ [] :=
  ⟨c9_skip_and_continue.1 "m" ⟨"", "id0"⟩ "data:" ["x"]
     (by decide) rfl rfl (Or.inl rfl),
   c9_skip_and_continue.1 "m" ⟨"", "id0"⟩ "data: \x7b\"type\": \"ping\"\x7d" []
     (by decide) rfl rfl (Or.inr rfl),
   c9_skip_and_continue.2.1 "m" ⟨"message_start", "id0"⟩ "data: \x7bbad" ["x"]
     (by decide) rfl rfl (by decide) (by decide) rfl rfl,
   c9_skip_and_continue.2.2.1 "m" ⟨"content_block_delta", "id0"⟩ "data: \x7bbad" ["x"]
     (by decide) rfl rfl (by decide) (by decide) rfl rfl,
   c9_skip_and_continue.2.2.2.1 "m" 7 ⟨"", "id0"⟩ "data: \x7b\"type\": \"ping\"\x7d" ["x"]
     rfl rfl (Or.inr rfl),
   c9_skip_and_continue.2.2.2.2.1 "m" 7 ⟨"message_start", "id0"⟩ "data: \x7bbad" []
     rfl rfl (by decide) (by decide) rfl rfl,
   c9_skip_and_continue.2.2.2.2.2.1 "m" 7 ⟨"content_block_delta", "id0"⟩ "data: \x7bbad" []
     rfl rfl (by decide) (by decide) rfl rfl,
   c9_skip_and_continue.2.2.2.2.2.2 "m" 7 ⟨"message_delta", "id0"⟩ "data: \x7bbad" []
     rfl rfl (by decide) (by decide) rfl rfl⟩

/-! ## Claim C7 -/

/-- `String.append` acts as list append on the character data. -/
theorem strData_append (a b : String) : (a ++ b).data = a.data ++ b.data := rfl

/-- A slash-free character list splits into itself. -/
theorem splitSlashL_slashfree :
    ∀ (a : List Char), (∀ c ∈ a, c ≠ '/') → Az.splitSlashL a = [a] := by
  intro a
  induction a with
  | nil => intro _; rfl
  | cons c rest ih =>
    intro h
    have hc : c ≠ '/' := h c (List.mem_cons_self _ _)
    have hrest := ih (fun x hx => h x (List.mem_cons_of_mem _ hx))
    simp only [Az.splitSlashL]
    split
    · rename_i heq
      rw [hrest] at heq
      cases heq
    · rename_i c2 rest2 heq
      rw [hrest] at heq
      obtain ⟨h1, h2⟩ := List.cons.inj heq.symm
      subst h1
      subst h2
      rfl

/-- Splitting at the first slash after a slash-free prefix. -/
theorem splitSlashL_append :
    ∀ (a b : List Char), (∀ c ∈ a, c ≠ '/') →
      Az.splitSlashL (a ++ '/' :: b) = a :: Az.splitSlashL b := by
  intro a
  induction a with
  | nil => intro b _; rfl
  | cons c rest ih =>
    intro b h
    have hc : c ≠ '/' := h c (List.mem_cons_self _ _)
    have hrest := ih b (fun x hx => h x (List.mem_cons_of_mem _ hx))
    show Az.splitSlashL (c :: (rest ++ '/' :: b)) = (c :: rest) :: Az.splitSlashL b
    simp only [Az.splitSlashL]
    split
    · rename_i heq
      rw [hrest] at heq
      cases heq
    · rename_i c2 rest2 heq
      rw [hrest] at heq
      obtain ⟨h1, h2⟩ := List.cons.inj heq.symm
      subst h1
      subst h2
      rfl

/-- `path.Join` on the chat-completions frame with a clean deployment
segment produces the expected deployment-scoped path. -/
theorem goPathJoin_deployment (d : String) (hd : d ≠ "") (hd1 : d ≠ ".")
    (hd2 : d ≠ "..") (hds : ∀ c ∈ d.data, c ≠ '/') :
    Az.goPathJoin ["/openai/deployments", d, "chat/completions"] =
      "/openai/deployments/" ++ d ++ "/chat/completions" := by
  have hes : (["/openai/deployments", d, "chat/completions"].filter
      (fun e => e ≠ "")) = ["/openai/deployments", d, "chat/completions"] := by
    simp [hd]
  have hdata : ("/openai/deployments" ++ "/" ++ (d ++ "/" ++ "chat/completions")).data =
      '/' :: ("openai".data ++ '/' :: ("deployments".data ++ '/' ::
        (d.data ++ '/' :: "chat/completions".data))) := by
    simp only [strData_append, List.append_assoc]
    rfl
  have hs : ("/openai/deployments" ++ "/" ++ (d ++ "/" ++ "chat/completions")) ≠ "" := by
    intro h
    have h2 := congrArg String.data h
    rw [hdata] at h2
    cases h2
  have habs : strStarts ("/openai/deployments" ++ "/" ++ (d ++ "/" ++ "chat/completions"))
      "/" = true := by
    simp only [strStarts, hdata]
    rfl
  have hsplit : Az.splitSlashL ('/' :: ("openai".data ++ '/' :: ("deployments".data ++ '/' ::
      (d.data ++ '/' :: "chat/completions".data)))) =
      [[], "openai".data, "deployments".data, d.data, "chat".data, "completions".data] := by
    simp only [Az.splitSlashL]
    rw [splitSlashL_append d.data _ hds]
    rfl
  have hcore : ("openai" ++ "/" ++ ("deployments" ++ "/" ++ (d ++ "/" ++
      ("chat" ++ "/" ++ "completions")))) ≠ "" := by
    intro h
    have h2 := congrArg String.data h
    simp only [strData_append, List.append_assoc] at h2
    cases h2
  simp only [Az.goPathJoin, hes, List.isEmpty_cons, Bool.false_eq_true, if_false,
    goStringsJoin, Az.pathClean, if_neg hs, habs, hdata, hsplit, eq_self_iff_true, if_true]
  simp only [List.map]
  rw [show String.mk ([] : List Char) = "" from rfl,
    show String.mk ['o', 'p', 'e', 'n', 'a', 'i'] = "openai" from rfl,
    show String.mk ['d', 'e', 'p', 'l', 'o', 'y', 'm', 'e', 'n', 't', 's'] =
      "deployments" from rfl,
    show String.mk ['c', 'h', 'a', 't'] = "chat" from rfl,
    show String.mk ['c', 'o', 'm', 'p', 'l', 'e', 't', 'i', 'o', 'n', 's'] =
      "completions" from rfl,
    show String.mk d.data = d from rfl]
  simp only [List.foldl]
  simp [hd, hd1, hd2]
  simp only [goStringsJoin, if_neg hcore]
  have h3 : ("/" ++ ("openai" ++ "/" ++ ("deployments" ++ "/" ++ (d ++ "/" ++
      ("chat" ++ "/" ++ "completions"))))).data =
      ("/openai/deployments/" ++ d ++ "/chat/completions").data := by
    simp only [strData_append, List.append_assoc]
    rfl
  exact congrArg String.mk h3

/-- Filtering out one header key does not change lookups of other keys. -/
theorem find?_filter_ne (k k2 : String) (h : k2 ≠ k) :
    ∀ hs : List (String × String),
      List.find? (fun p => p.1 == k2) (hs.filter (fun p => p.1 != k)) =
        List.find? (fun p => p.1 == k2) hs := by
  intro hs
  induction hs with
  | nil => rfl
  | cons p rest ih =>
    by_cases hp : p.1 = k
    · have h1 : (p.1 != k) = false := by simp [hp]
      have h2 : (p.1 == k2) = false := by simp [hp, Ne.symm h]
      simp [List.filter, h1, List.find?, h2, ih]
    · have h1 : (p.1 != k) = true := by simp [hp]
      by_cases hq : p.1 = k2
      · have h2 : (p.1 == k2) = true := by simp [hq]
        simp [List.filter, h1, List.find?, h2]
      · have h2 : (p.1 == k2) = false := by simp [hq]
        simp [List.filter, h1, List.find?, h2, ih]

/-- `Header.Set` then `Get` of the same key yields the set value. -/
theorem hGet_hSet_self (hs : List (String × String)) (k v : String) :
    Az.hGet (Az.hSet hs k v) k = v := by
  simp [Az.hGet, Az.hSet, List.find?]

/-- `Header.Set` leaves other keys unchanged. -/
theorem hGet_hSet_ne (hs : List (String × String)) (k v k2 : String) (h : k2 ≠ k) :
    Az.hGet (Az.hSet hs k v) k2 = Az.hGet hs k2 := by
  have h2 : (k == k2) = false := by simp [Ne.symm h]
  simp only [Az.hGet, Az.hSet, List.find?, h2, find?_filter_ne k k2 h hs]

/-- `Header.Del` then `Get` of the same key yields the empty string. -/
theorem hGet_hDel_self (hs : List (String × String)) (k : String) :
    Az.hGet (Az.hDel hs k) k = "" := by
  have h : List.find? (fun p => p.1 == k) (hs.filter (fun p => p.1 != k)) = none := by
    rw [List.find?_eq_none]
    intro x hx
    have h2 := (List.mem_filter.mp hx).2
    simp only [bne_iff_ne, ne_eq] at h2
    simp [h2]
  simp only [Az.hGet, Az.hDel, h]

/-- `Header.Del` leaves other keys unchanged. -/
theorem hGet_hDel_ne (hs : List (String × String)) (k k2 : String) (h : k2 ≠ k) :
    Az.hGet (Az.hDel hs k) k2 = Az.hGet hs k2 := by
  simp only [Az.hGet, Az.hDel, find?_filter_ne k k2 h hs]

/-- The director on an Anthropic Messages request: fixed
deployment-agnostic path, untouched query (no `api-version`), the
`anthropic-version` header set, and the `api-key` header turned into a
bearer `Authorization` header. -/
theorem handleRegular_anthropic (remoteScheme remoteHost deployment : String)
    (req : Az.ProxyReq)
    (h1 : containsSub req.path "/v1/responses" = false)
    (h2 : strStarts req.path "/v1/anthropic/messages" = true)
    (hk : Az.hGet req.headers "api-key" ≠ "") :
    (Az.handleRegularRequest remoteScheme remoteHost deployment req).path =
      "/anthropic/v1/messages" ∧
    (Az.handleRegularRequest remoteScheme remoteHost deployment req).query = req.query ∧
    Az.hGet (Az.handleRegularRequest remoteScheme remoteHost deployment req).headers
      "anthropic-version" = Az.anthropicAPIVersion ∧
    Az.hGet (Az.handleRegularRequest remoteScheme remoteHost deployment req).headers
      "Authorization" = "Bearer " ++ Az.hGet req.headers "api-key" ∧
    Az.hGet (Az.handleRegularRequest remoteScheme remoteHost deployment req).headers
      "api-key" = "" := by
  have hkey : Az.hGet (Az.hSet req.headers "anthropic-version" Az.anthropicAPIVersion)
      "api-key" = Az.hGet req.headers "api-key" :=
    hGet_hSet_ne _ _ _ _ (by decide)
  have hdk : decide (Az.hGet req.headers "api-key" ≠ "") = true := decide_eq_true hk
  have hcs : containsSub "/anthropic/v1/messages" "/anthropic/v1/messages" = true := rfl
  have hres : Az.handleRegularRequest remoteScheme remoteHost deployment req =
      { scheme := remoteScheme, host := remoteHost, path := "/anthropic/v1/messages",
        query := req.query,
        headers := Az.hDel (Az.hSet
          (Az.hSet req.headers "anthropic-version" Az.anthropicAPIVersion)
          "Authorization" ("Bearer " ++ Az.hGet req.headers "api-key")) "api-key" } := by
    simp only [Az.handleRegularRequest, h1, h2, Bool.false_eq_true, if_false, if_true,
      eq_self_iff_true, ne_eq, not_true, hkey, hdk, hcs, Bool.and_self]
  refine ⟨?_, ?_, ?_, ?_, ?_⟩
  · rw [hres]
  · rw [hres]
  · rw [hres]
    dsimp only
    rw [hGet_hDel_ne _ _ _ (by decide), hGet_hSet_ne _ _ _ _ (by decide), hGet_hSet_self]
  · rw [hres]
    dsimp only
    rw [hGet_hDel_ne _ _ _ (by decide), hGet_hSet_self]
  · rw [hres]
    dsimp only
    rw [hGet_hDel_self]

/-- The director on a chat-completions request: deployment-scoped path
and the `api-version` query parameter appended. -/
theorem handleRegular_chat (remoteScheme remoteHost deployment : String)
    (req : Az.ProxyReq)
    (h1 : containsSub req.path "/v1/responses" = false)
    (h2 : strStarts req.path "/v1/anthropic/messages" = false)
    (h3 : strStarts req.path "/v1/chat/completions" = true)
    (hd : deployment ≠ "") (hd1 : deployment ≠ ".") (hd2 : deployment ≠ "..")
    (hds : ∀ c ∈ deployment.data, c ≠ '/') :
    (Az.handleRegularRequest remoteScheme remoteHost deployment req).path =
      "/openai/deployments/" ++ deployment ++ "/chat/completions" ∧
    (Az.handleRegularRequest remoteScheme remoteHost deployment req).query =
      req.query ++ [("api-version", Az.azureOpenAIAPIVersion)] := by
  have hj := goPathJoin_deployment deployment hd hd1 hd2 hds
  simp only [Az.handleRegularRequest, h1, h2, h3, Bool.false_eq_true, if_false, if_true,
    hj, if_pos (show ("chat/completions" : String) ≠ "anthropic/messages" from by decide)]
  constructor
  · split <;> rfl
  · split <;> rfl

/-- The part-007 claude-path director on a successfully converted
request: fixed deployment-agnostic path, empty query (no `api-version`),
the `anthropic-version` header set, and the resolved key installed as
`x-api-key` with the `api-key` and `Authorization` headers removed. -/
theorem handleClaude_anthropic (baseScheme baseHost anthropicVersion model apiKey : String)
    (payload : List (String × Json)) (req : Az.ProxyReq) (body : Az.MessagesBody)
    (hconv : Az.convertOpenAIRequestToAnthropic payload = some body)
    (hk : apiKey ≠ "") :
    ∃ r : Az.ProxyReq,
      Az.handleClaudeProxyRequest baseScheme baseHost "/anthropic" anthropicVersion
        model apiKey payload req = some r ∧
      r.path = "/anthropic/v1/messages" ∧
      r.query = [] ∧
      Az.hGet r.headers "anthropic-version" = anthropicVersion ∧
      Az.hGet r.headers "x-api-key" = apiKey ∧
      Az.hGet r.headers "api-key" = "" ∧
      Az.hGet r.headers "Authorization" = "" := by
  have hjoin : Az.goPathJoin ["/anthropic", "v1", "messages"] = "/anthropic/v1/messages" :=
    rfl
  cases hstream : body.stream with
  | false =>
    simp only [Az.handleClaudeProxyRequest, hconv, hjoin, hstream, if_pos hk,
      Bool.false_eq_true, if_false,
      if_pos (show strStarts "/anthropic/v1/messages" "/" = true from rfl)]
    refine ⟨_, rfl, ?_, ?_, ?_, ?_, ?_, ?_⟩
    · rfl
    · rfl
    · dsimp only
      rw [hGet_hSet_self]
    · dsimp only
      rw [hGet_hSet_ne _ _ _ _ (by decide), hGet_hDel_ne _ _ _ (by decide),
        hGet_hDel_ne _ _ _ (by decide), hGet_hSet_self]
    · dsimp only
      rw [hGet_hSet_ne _ _ _ _ (by decide), hGet_hDel_ne _ _ _ (by decide),
        hGet_hDel_self]
    · dsimp only
      rw [hGet_hSet_ne _ _ _ _ (by decide), hGet_hDel_self]
  | true =>
    simp only [Az.handleClaudeProxyRequest, hconv, hjoin, hstream, if_pos hk, if_true,
      if_pos (show strStarts "/anthropic/v1/messages" "/" = true from rfl)]
    refine ⟨_, rfl, ?_, ?_, ?_, ?_, ?_, ?_⟩
    · rfl
    · rfl
    · dsimp only
      rw [hGet_hSet_ne _ _ _ _ (by decide), hGet_hSet_ne _ _ _ _ (by decide),
        hGet_hSet_self]
    · dsimp only
      rw [hGet_hSet_ne _ _ _ _ (by decide), hGet_hSet_ne _ _ _ _ (by decide),
        hGet_hSet_ne _ _ _ _ (by decide), hGet_hDel_ne _ _ _ (by decide),
        hGet_hDel_ne _ _ _ (by decide), hGet_hSet_self]
    · dsimp only
      rw [hGet_hSet_ne _ _ _ _ (by decide), hGet_hSet_ne _ _ _ _ (by decide),
        hGet_hSet_ne _ _ _ _ (by decide), hGet_hDel_ne _ _ _ (by decide),
        hGet_hDel_self]
    · dsimp only
      rw [hGet_hSet_ne _ _ _ _ (by decide), hGet_hSet_ne _ _ _ _ (by decide),
        hGet_hSet_ne _ _ _ _ (by decide), hGet_hDel_self]

/-- C7: requests to the Anthropic Messages upstream get the fixed
deployment-agnostic path `/anthropic/v1/messages`, an untouched query
string (no `api-version` parameter), the `anthropic-version` header and
key-based authentication from the resolved key — in the bearer mode of
`handleRegularRequest` a `Bearer` `Authorization` header built from the
`api-key` header (which is removed), and in the x-api-key mode of
`handleClaudeProxyRequest` (whose query is cleared entirely) the resolved
key as `x-api-key` with `api-key` and `Authorization` removed;
chat-completions requests instead get the path
`/openai/deployments/{deployment}/chat/completions` and the `api-version`
query parameter appended. -/
theorem c7_director :
    (∀ (remoteScheme remoteHost deployment : String) (req : Az.ProxyReq),
      containsSub req.path "/v1/responses" = false →
      strStarts req.path "/v1/anthropic/messages" = true →
      Az.hGet req.headers "api-key" ≠ "" →
      (Az.handleRegularRequest remoteScheme remoteHost deployment req).path =
        "/anthropic/v1/messages" ∧
      (Az.handleRegularRequest remoteScheme remoteHost deployment req).query =
        req.query ∧
      Az.hGet (Az.handleRegularRequest remoteScheme remoteHost deployment req).headers
        "anthropic-version" = Az.anthropicAPIVersion ∧
      Az.hGet (Az.handleRegularRequest remoteScheme remoteHost deployment req).headers
        "Authorization" = "Bearer " ++ Az.hGet req.headers "api-key" ∧
      Az.hGet (Az.handleRegularRequest remoteScheme remoteHost deployment req).headers
        "api-key" = "") ∧
    (∀ (remoteScheme remoteHost deployment : String) (req : Az.ProxyReq),
      containsSub req.path "/v1/responses" = false →
      strStarts req.path "/v1/anthropic/messages" = false →
      strStarts req.path "/v1/chat/completions" = true →
      deployment ≠ "" → deployment ≠ "." → deployment ≠ ".." →
      (∀ c ∈ deployment.data, c ≠ '/') →
      (Az.handleRegularRequest remoteScheme remoteHost deployment req).path =
        "/openai/deployments/" ++ deployment ++ "/chat/completions" ∧
      (Az.handleRegularRequest remoteScheme remoteHost deployment req).query =
        req.query ++ [("api-version", Az.azureOpenAIAPIVersion)]) ∧
    (∀ (baseScheme baseHost anthropicVersion model apiKey : String)
      (payload : List (String × Json)) (req : Az.ProxyReq) (body : Az.MessagesBody),
      Az.convertOpenAIRequestToAnthropic payload = some body →
      apiKey ≠ "" →
      ∃ r : Az.ProxyReq,
        Az.handleClaudeProxyRequest baseScheme baseHost "/anthropic" anthropicVersion
          model apiKey payload req = some r ∧
        r.path = "/anthropic/v1/messages" ∧
        r.query = [] ∧
        Az.hGet r.headers "anthropic-version" = anthropicVersion ∧
        Az.hGet r.headers "x-api-key" = apiKey ∧
        Az.hGet r.headers "api-key" = "" ∧
        Az.hGet r.headers "Authorization" = "") :=
  ⟨fun rs rh dep req h1 h2 hk => handleRegular_anthropic rs rh dep req h1 h2 hk,
   fun rs rh dep req h1 h2 h3 hd hd1 hd2 hds =>
     handleRegular_chat rs rh dep req h1 h2 h3 hd hd1 hd2 hds,
   fun bs bh av m k payload req body hconv hk =>
     handleClaude_anthropic bs bh av m k payload req body hconv hk⟩

/-- C7 witness: a concrete Anthropic Messages request and a concrete
chat-completions request through `handleRegularRequest`, and a concrete
chat-completions request through the claude-path
`handleClaudeProxyRequest`. -/
theorem c7_witness :
    ((Az.handleRegularRequest "https" "res.azure.example"  "gpt-4o"
        ⟨"http", "orig", "/v1/anthropic/messages", [("a", "b")],
         [("api-key", "K")]⟩).path = "/anthropic/v1/messages" ∧
     (Az.handleRegularRequest "https" "res.azure.example" "gpt-4o"
        ⟨"http", "orig", "/v1/anthropic/messages", [("a", "b")],
         [("api-key", "K")]⟩).query = [("a", "b")] ∧
     Az.hGet (Az.handleRegularRequest "https" "res.azure.example" "gpt-4o"
        ⟨"http", "orig", "/v1/anthropic/messages", [("a", "b")],
         [("api-key", "K")]⟩).headers "anthropic-version" = Az.anthropicAPIVersion ∧
     Az.hGet (Az.handleRegularRequest "https" "res.azure.example" "gpt-4o"
        ⟨"http", "orig", "/v1/anthropic/messages", [("a", "b")],
         [("api-key", "K")]⟩).headers "Authorization" =
       "Bearer " ++ Az.hGet [("api-key", "K")] "api-key" ∧
     Az.hGet (Az.handleRegularRequest "https" "res.azure.example" "gpt-4o"
        ⟨"http", "orig", "/v1/anthropic/messages", [("a", "b")],
         [("api-key", "K")]⟩).headers "api-key" = "") ∧
    ((Az.handleRegularRequest "https" "res.azure.example" "gpt-4o"
        ⟨"http", "orig", "/v1/chat/completions", [], []⟩).path =
       "/openai/deployments/" ++ "gpt-4o" ++ "/chat/completions" ∧
     (Az.handleRegularRequest "https" "res.azure.example" "gpt-4o"
        ⟨"http", "orig", "/v1/chat/completions", [], []⟩).query =
       [] ++ [("api-version", Az.azureOpenAIAPIVersion)]) ∧
    (∃ r : Az.ProxyReq,
      Az.handleClaudeProxyRequest "https" "res.services.ai.azure.com" "/anthropic"
        "2023-06-01" "claude-3" "K"
        [("messages", .arr [Json.obj [("role", .str "user"), ("content", .str "Hello")]])]
        ⟨"http", "orig", "/v1/chat/completions", [("q", "1")], [("api-key", "K")]⟩ =
        some r ∧
      r.path = "/anthropic/v1/messages" ∧
      r.query = [] ∧
      Az.hGet r.headers "anthropic-version" = "2023-06-01" ∧
      Az.hGet r.headers "x-api-key" = "K" ∧
      Az.hGet r.headers "api-key" = "" ∧
      Az.hGet r.headers "Authorization" = "") :=
  ⟨c7_director.1 "https" "res.azure.example" "gpt-4o"
     ⟨"http", "orig", "/v1/anthropic/messages", [("a", "b")], [("api-key", "K")]⟩
     rfl rfl (by decide),
   c7_director.2.1 "https" "res.azure.example" "gpt-4o"
     ⟨"http", "orig", "/v1/chat/completions", [], []⟩
     rfl rfl rfl (by decide) (by decide) (by decide) (by decide),
   c7_director.2.2 "https" "res.services.ai.azure.com" "2023-06-01" "claude-3" "K"
     [("messages", .arr [Json.obj [("role", .str "user"), ("content", .str "Hello")]])]
     ⟨"http", "orig", "/v1/chat/completions", [("q", "1")], [("api-key", "K")]⟩
     _ rfl (by decide)⟩

/-! ## Claim C10 -/

theorem noNL_digitChar10 (n : Nat) : digitChar10 n ≠ '\n' := by
  simp only [digitChar10]
  split_ifs <;> decide

theorem noNL_hexDigit (n : Nat) : hexDigit n ≠ '\n' := by
  simp only [hexDigit, digitChar10]
  split_ifs <;> decide

theorem noNL_escChar (c : Char) : '\n' ∉ (escChar c).data := by
  simp only [escChar]
  split_ifs with h1 h2 h3 h4 h5 h6 h7 h8 h9
  · decide
  · decide
  · decide
  · decide
  · decide
  · decide
  · decide
  · decide
  · intro hm
    simp only [strData_append] at hm
    rcases List.mem_append.mp hm with hm | hm
    · revert hm
      decide
    · simp only [List.mem_cons, List.not_mem_nil, or_false] at hm
      rcases hm with hm | hm
      · exact noNL_hexDigit _ hm.symm
      · exact noNL_hexDigit _ hm.symm
  · intro hm
    rw [show (String.singleton c).data = [c] from rfl] at hm
    simp only [List.mem_cons, List.not_mem_nil, or_false] at hm
    exact h3 hm.symm

theorem noNL_escGo : ∀ cs : List Char, '\n' ∉ (escGo cs).data := by
  intro cs
  induction cs with
  | nil => decide
  | cons c rest ih =>
    simp only [escGo, strData_append]
    intro hm
    rcases List.mem_append.mp hm with hm | hm
    · exact noNL_escChar c hm
    · exact ih hm

theorem noNL_quoteJson (s : String) : '\n' ∉ (quoteJson s).data := by
  simp only [quoteJson, escString, strData_append]
  intro hm
  rcases List.mem_append.mp hm with hm | hm
  · rcases List.mem_append.mp hm with hm | hm
    · revert hm; decide
    · exact noNL_escGo s.data hm
  · revert hm; decide

theorem noNL_natToRevAux : ∀ (fuel n : Nat), '\n' ∉ natToRevAux fuel n := by
  intro fuel
  induction fuel with
  | zero => intro n; simp [natToRevAux]
  | succ f ih =>
    intro n
    simp only [natToRevAux]
    split_ifs
    · simp
    · intro hm
      rcases List.mem_cons.mp hm with hm | hm
      · exact noNL_digitChar10 _ hm.symm
      · exact ih _ hm

theorem noNL_natToStr (n : Nat) : '\n' ∉ (natToStr n).data := by
  simp only [natToStr]
  split_ifs
  · decide
  · show '\n' ∉ (natToRev n).reverse
    intro hm
    exact noNL_natToRevAux n n (List.mem_reverse.mp hm)

theorem noNL_intToStr (m : Int) : '\n' ∉ (intToStr m).data := by
  simp only [intToStr]
  split_ifs
  · simp only [strData_append]
    intro hm
    rcases List.mem_append.mp hm with hm | hm
    · revert hm; decide
    · exact noNL_natToStr _ hm
  · exact noNL_natToStr _

theorem noNL_jnumRenderFrac (m : Int) (k : Nat) : '\n' ∉ (jnumRenderFrac m k).data := by
  have hds : '\n' ∉ (if (natToStr m.natAbs).data.length ≤ k then
      List.replicate (k + 1 - (natToStr m.natAbs).data.length) '0' ++ (natToStr m.natAbs).data
      else (natToStr m.natAbs).data) := by
    split_ifs
    · intro hm
      rcases List.mem_append.mp hm with hm | hm
      · exact absurd (List.eq_of_mem_replicate hm) (by decide)
      · exact noNL_natToStr _ hm
    · exact noNL_natToStr _
  have htz : ∀ (cs : List Char), '\n' ∉ cs → '\n' ∉ trimZerosR cs := by
    intro cs h hm
    simp only [trimZerosR] at hm
    exact h (List.mem_reverse.mp (List.dropWhile_subset _ (List.mem_reverse.mp hm)))
  simp only [jnumRenderFrac, strData_append]
  generalize hgen : (if (natToStr m.natAbs).data.length ≤ k then
      List.replicate (k + 1 - (natToStr m.natAbs).data.length) '0' ++ (natToStr m.natAbs).data
      else (natToStr m.natAbs).data) = ds
  rw [hgen] at hds
  intro hm
  rcases List.mem_append.mp hm with hm | hm
  · rcases List.mem_append.mp hm with hm | hm
    · revert hm
      split_ifs <;> decide
    · exact hds (List.take_subset _ _ hm)
  · revert hm
    split_ifs
    · decide
    · intro hm
      rcases List.mem_append.mp hm with hm | hm
      · revert hm; decide
      · exact htz _ (fun h2 => hds (List.drop_subset _ _ h2)) hm

theorem noNL_jnumRender (m e : Int) : '\n' ∉ (jnumRender m e).data := by
  simp only [jnumRender]
  split_ifs
  · simp only [strData_append]
    intro hm
    rcases List.mem_append.mp hm with hm | hm
    · exact noNL_intToStr _ hm
    · exact absurd (List.eq_of_mem_replicate hm) (by decide)
  · exact noNL_jnumRenderFrac _ _

theorem mem_insertPair (p x : String × String) :
    ∀ l : List (String × String), x ∈ insertPair p l → x = p ∨ x ∈ l := by
  intro l
  induction l with
  | nil =>
    intro h
    simp only [insertPair, List.mem_cons, List.not_mem_nil, or_false] at h
    exact Or.inl h
  | cons q rest ih =>
    intro h
    simp only [insertPair] at h
    split_ifs at h
    · rcases List.mem_cons.mp h with h | h
      · exact Or.inl h
      · exact Or.inr h
    · rcases List.mem_cons.mp h with h | h
      · exact Or.inr (List.mem_cons.mpr (Or.inl h))
      · rcases ih h with h | h
        · exact Or.inl h
        · exact Or.inr (List.mem_cons.mpr (Or.inr h))

theorem mem_sortPairs (x : String × String) :
    ∀ l : List (String × String), x ∈ sortPairs l → x ∈ l := by
  intro l
  induction l with
  | nil => intro h; exact absurd h (List.not_mem_nil x)
  | cons p rest ih =>
    intro h
    simp only [sortPairs] at h
    rcases mem_insertPair p x _ h with h | h
    · exact List.mem_cons.mpr (Or.inl h)
    · exact List.mem_cons.mpr (Or.inr (ih h))

theorem noNL_joinRenderedObj :
    ∀ ps : List (String × String), (∀ p ∈ ps, '\n' ∉ p.2.data) →
      '\n' ∉ (joinRenderedObj ps).data := by
  intro ps
  induction ps with
  | nil => intro _; decide
  | cons p rest ih =>
    intro h
    have hp := h p (List.mem_cons_self _ _)
    have hrest := ih (fun q hq => h q (List.mem_cons_of_mem _ hq))
    rcases p with ⟨k, v⟩
    cases rest with
    | nil =>
      simp only [joinRenderedObj, strData_append]
      intro hm
      rcases List.mem_append.mp hm with hm | hm
      · rcases List.mem_append.mp hm with hm | hm
        · exact noNL_quoteJson k hm
        · revert hm; decide
      · exact hp hm
    | cons q rest2 =>
      simp only [joinRenderedObj, strData_append]
      intro hm
      rcases List.mem_append.mp hm with hm | hm
      · rcases List.mem_append.mp hm with hm | hm
        · rcases List.mem_append.mp hm with hm | hm
          · rcases List.mem_append.mp hm with hm | hm
            · exact noNL_quoteJson k hm
            · revert hm; decide
          · exact hp hm
        · revert hm; decide
      · exact hrest hm

theorem mem_jserializeKVs (x : String × String) :
    ∀ kvs : List (String × Json), x ∈ jserializeKVs kvs →
      ∃ k v, (k, v) ∈ kvs ∧ x = (k, jserialize v) := by
  intro kvs
  induction kvs with
  | nil => intro h; exact absurd h (List.not_mem_nil x)
  | cons p rest ih =>
    intro h
    rcases p with ⟨k, v⟩
    simp only [jserializeKVs] at h
    rcases List.mem_cons.mp h with h | h
    · exact ⟨k, v, List.mem_cons_self _ _, h⟩
    · obtain ⟨k2, v2, hmem, hx⟩ := ih h
      exact ⟨k2, v2, List.mem_cons_of_mem _ hmem, hx⟩

theorem noNL_jserializeElems :
    ∀ ys : List Json, (∀ x ∈ ys, '\n' ∉ (jserialize x).data) →
      '\n' ∉ (jserializeElems ys).data := by
  intro ys
  induction ys with
  | nil => intro _; decide
  | cons x rest ih =>
    intro h
    have hx := h x (List.mem_cons_self _ _)
    have hrest := ih (fun y hy => h y (List.mem_cons_of_mem _ hy))
    cases rest with
    | nil => exact hx
    | cons y rest2 =>
      simp only [jserializeElems, strData_append]
      intro hm
      rcases List.mem_append.mp hm with hm | hm
      · rcases List.mem_append.mp hm with hm | hm
        · exact hx hm
        · revert hm; decide
      · exact hrest hm

theorem noNL_jserialize_aux :
    ∀ (n : Nat) (j : Json), sizeOf j ≤ n → '\n' ∉ (jserialize j).data := by
  intro n
  induction n with
  | zero =>
    intro j h
    cases j <;> simp at h
  | succ n ih =>
    intro j hsz
    cases j with
    | null => decide
    | bool b => cases b <;> decide
    | num m e il => exact noNL_jnumRender m e
    | str s => exact noNL_quoteJson s
    | arr xs =>
      have hx : ∀ x ∈ xs, '\n' ∉ (jserialize x).data := by
        intro x hxm
        apply ih
        have h1 := List.sizeOf_lt_of_mem hxm
        have h2 : sizeOf (Json.arr xs) = 1 + sizeOf xs := by simp
        omega
      simp only [jserialize, strData_append]
      intro hm
      rcases List.mem_append.mp hm with hm | hm
      · rcases List.mem_append.mp hm with hm | hm
        · revert hm; decide
        · exact noNL_jserializeElems xs hx hm
      · revert hm; decide
    | obj kvs =>
      have hps : ∀ p ∈ sortPairs (jserializeKVs kvs), '\n' ∉ p.2.data := by
        intro p hp
        obtain ⟨k, v, hmem, hx⟩ := mem_jserializeKVs p kvs (mem_sortPairs p _ hp)
        subst hx
        apply ih
        have h1 := List.sizeOf_lt_of_mem hmem
        have h2 : sizeOf (k, v) = 1 + sizeOf k + sizeOf v := by simp
        have h3 : sizeOf (Json.obj kvs) = 1 + sizeOf kvs := by simp
        have h4 : 0 < sizeOf k := by
          cases k
          simp
        omega
      simp only [jserialize, strData_append]
      intro hm
      rcases List.mem_append.mp hm with hm | hm
      · rcases List.mem_append.mp hm with hm | hm
        · revert hm; decide
        · exact noNL_joinRenderedObj _ hps hm
      · revert hm; decide

theorem noNL_jserialize (j : Json) : '\n' ∉ (jserialize j).data :=
  noNL_jserialize_aux (sizeOf j) j le_rfl

theorem scHandleMessageStart_chunkOk (model data : String) (st : SCState) (j : Json)
    (h : Frame.chunk j ∈ (Anthro.scHandleMessageStart model data st).1) : chunkOk j := by
  simp only [Anthro.scHandleMessageStart] at h
  rcases hd : Anthro.decodeMessageStartData data with _ | resp <;> rw [hd] at h
  · exact absurd h (List.not_mem_nil _)
  · simp only [List.mem_cons, List.not_mem_nil, or_false] at h
    rw [Frame.chunk.inj h]
    exact ⟨rfl, ⟨_, rfl, rfl⟩, noNL_jserialize _⟩

theorem scHandleContentDelta_chunkOk (model data : String) (st : SCState) (j : Json)
    (h : Frame.chunk j ∈ Anthro.scHandleContentDelta model data st) : chunkOk j := by
  simp only [Anthro.scHandleContentDelta] at h
  rcases hd : Anthro.decodeContentDeltaData data with _ | delta <;> rw [hd] at h
  · exact absurd h (List.not_mem_nil _)
  · simp only [List.mem_cons, List.not_mem_nil, or_false] at h
    rw [Frame.chunk.inj h]
    exact ⟨rfl, ⟨_, rfl, rfl⟩, noNL_jserialize _⟩

theorem scConvert_chunkOk :
    ∀ (model : String) (lines : List String) (st : SCState) (j : Json),
      Frame.chunk j ∈ (Anthro.scConvert model st lines).1 → chunkOk j := by
  intro model lines
  induction lines with
  | nil => intro st j h; exact absurd h (List.not_mem_nil _)
  | cons l rest ih =>
    intro st j h
    simp only [Anthro.scConvert] at h
    split_ifs at h
    · exact ih _ _ h
    · exact ih _ _ h
    · exact ih _ _ h
    · rcases hh : Anthro.scHandleMessageStart model (strTrim (dropPre (strTrim l) "data:")) st
        with ⟨fs, st2⟩
      rw [hh] at h
      rcases hr : Anthro.scConvert model st2 rest with ⟨fs2, left⟩
      rw [hr] at h
      simp only at h
      rcases List.mem_append.mp h with h | h
      · apply scHandleMessageStart_chunkOk model _ st j
        rw [hh]
        exact h
      · exact ih _ _ (by rw [hr]; exact h)
    · rcases hr : Anthro.scConvert model st rest with ⟨fs2, left⟩
      rw [hr] at h
      simp only at h
      rcases List.mem_append.mp h with h | h
      · exact scHandleContentDelta_chunkOk model _ st j h
      · exact ih _ _ (by rw [hr]; exact h)
    · simp only [List.mem_cons, List.not_mem_nil, or_false] at h
      rcases h with h | h
      · rw [Frame.chunk.inj h]
        exact ⟨rfl, ⟨_, rfl, rfl⟩, noNL_jserialize _⟩
      · exact Frame.noConfusion h
    · exact ih _ _ h
    · exact ih _ _ h

theorem asgHandleMessageStart_chunkOk (model : String) (now : Int) (data : String)
    (st : SCState) (j : Json)
    (h : Frame.chunk j ∈ (Az.asgHandleMessageStart model now data st).1) : chunkOk j := by
  simp only [Az.asgHandleMessageStart] at h
  rcases hd : parseObjOrNull data with _ | kvs <;> rw [hd] at h
  · exact absurd h (List.not_mem_nil _)
  · simp only [List.mem_cons, List.not_mem_nil, or_false] at h
    rw [Frame.chunk.inj h]
    exact ⟨rfl, ⟨_, rfl, rfl⟩, noNL_jserialize _⟩

theorem asgHandleContentDelta_chunkOk (model : String) (now : Int) (data : String)
    (st : SCState) (j : Json)
    (h : Frame.chunk j ∈ Az.asgHandleContentDelta model now data st) : chunkOk j := by
  simp only [Az.asgHandleContentDelta] at h
  rcases hd : parseObjOrNull data with _ | kvs <;> rw [hd] at h
  · exact absurd h (List.not_mem_nil _)
  · simp only at h
    split_ifs at h
    · exact absurd h (List.not_mem_nil _)
    · simp only [List.mem_cons, List.not_mem_nil, or_false] at h
      rw [Frame.chunk.inj h]
      exact ⟨rfl, ⟨_, rfl, rfl⟩, noNL_jserialize _⟩

theorem asgHandleMessageDelta_chunkOk (model : String) (now : Int) (data : String)
    (st : SCState) (j : Json)
    (h : Frame.chunk j ∈ Az.asgHandleMessageDelta model now data st) : chunkOk j := by
  simp only [Az.asgHandleMessageDelta] at h
  rcases hd : parseObjOrNull data with _ | kvs <;> rw [hd] at h
  · exact absurd h (List.not_mem_nil _)
  · simp only [List.mem_cons, List.not_mem_nil, or_false] at h
    rw [Frame.chunk.inj h]
    exact ⟨rfl, ⟨_, rfl, rfl⟩, noNL_jserialize _⟩

theorem asgConvert_chunkOk :
    ∀ (model : String) (now : Int) (lines : List String) (st : SCState) (j : Json),
      Frame.chunk j ∈ (Az.asgConvert model now st lines).1 → chunkOk j := by
  intro model now lines
  induction lines with
  | nil => intro st j h; exact absurd h (List.not_mem_nil _)
  | cons l rest ih =>
    intro st j h
    simp only [Az.asgConvert] at h
    split_ifs at h
    · exact ih _ _ h
    · exact ih _ _ h
    · rcases hh : Az.asgHandleMessageStart model now (strTrim (dropPre l "data:")) st
        with ⟨fs, st2⟩
      rw [hh] at h
      rcases hr : Az.asgConvert model now st2 rest with ⟨fs2, left⟩
      rw [hr] at h
      simp only at h
      rcases List.mem_append.mp h with h | h
      · apply asgHandleMessageStart_chunkOk model now _ st j
        rw [hh]
        exact h
      · exact ih _ _ (by rw [hr]; exact h)
    · rcases hr : Az.asgConvert model now st rest with ⟨fs2, left⟩
      rw [hr] at h
      simp only at h
      rcases List.mem_append.mp h with h | h
      · exact asgHandleContentDelta_chunkOk model now _ st j h
      · exact ih _ _ (by rw [hr]; exact h)
    · rcases hr : Az.asgConvert model now st rest with ⟨fs2, left⟩
      rw [hr] at h
      simp only at h
      rcases List.mem_append.mp h with h | h
      · exact asgHandleMessageDelta_chunkOk model now _ st j h
      · exact ih _ _ (by rw [hr]; exact h)
    · simp only [List.mem_cons, List.not_mem_nil, or_false] at h
      exact Frame.noConfusion h
    · exact ih _ _ h
    · exact ih _ _ h
    · exact ih _ _ h

theorem srcHandleTextDelta_chunkOk (model : String) (now : Int) (data : String) (j : Json)
    (h : Frame.chunk j ∈ Az.srcHandleTextDelta model now data) : chunkOk j := by
  simp only [Az.srcHandleTextDelta] at h
  rcases hd : parseObjOrNull data with _ | kvs <;> rw [hd] at h
  · exact absurd h (List.not_mem_nil _)
  · simp only at h
    split at h
    · simp only [List.mem_cons, List.not_mem_nil, or_false] at h
      rw [Frame.chunk.inj h]
      exact ⟨rfl, ⟨_, rfl, rfl⟩, noNL_jserialize _⟩
    · exact absurd h (List.not_mem_nil _)

theorem srcConvert_chunkOk :
    ∀ (model : String) (now : Int) (lines : List String) (et : String) (j : Json),
      Frame.chunk j ∈ (Az.srcConvert model now et lines).1 → chunkOk j := by
  intro model now lines
  induction lines with
  | nil => intro et j h; exact absurd h (List.not_mem_nil _)
  | cons l rest ih =>
    intro et j h
    simp only [Az.srcConvert] at h
    split_ifs at h
    · exact ih _ _ h
    · rcases hr : Az.srcConvert model now et rest with ⟨fs2, left⟩
      rw [hr] at h
      simp only at h
      rcases List.mem_append.mp h with h | h
      · exact srcHandleTextDelta_chunkOk model now _ j h
      · exact ih _ _ (by rw [hr]; exact h)
    · simp only [List.mem_cons, List.not_mem_nil, or_false] at h
      rcases h with h | h
      · rw [Frame.chunk.inj h]
        exact ⟨rfl, ⟨_, rfl, rfl⟩, noNL_jserialize _⟩
      · exact Frame.noConfusion h
    · exact ih _ _ h
    · exact ih _ _ h
    · exact ih _ _ h

theorem aspHandleDelta_chunkOk (model : String) (now : Int) (data : String) (j : Json)
    (h : Frame.chunk j ∈ Az.aspHandleDelta model now data) : chunkOk j := by
  simp only [Az.aspHandleDelta] at h
  rcases hd : parseObjOrNull data with _ | kvs <;> rw [hd] at h
  · exact absurd h (List.not_mem_nil _)
  · simp only at h
    split_ifs at h
    · exact absurd h (List.not_mem_nil _)
    · simp only [List.mem_cons, List.not_mem_nil, or_false] at h
      rw [Frame.chunk.inj h]
      exact ⟨rfl, ⟨_, rfl, rfl⟩, noNL_jserialize _⟩

theorem aspConvert_chunkOk :
    ∀ (model : String) (now : Int) (lines : List String) (et : String) (j : Json),
      Frame.chunk j ∈ Az.aspConvert model now et lines → chunkOk j := by
  intro model now lines
  induction lines with
  | nil => intro et j h; exact absurd h (List.not_mem_nil _)
  | cons l rest ih =>
    intro et j h
    simp only [Az.aspConvert] at h
    split_ifs at h
    · exact ih _ _ h
    · rcases List.mem_append.mp h with h | h
      · exact aspHandleDelta_chunkOk model now _ j h
      · exact ih _ _ h
    · simp only [List.mem_cons] at h
      rcases h with h | h | h
      · rw [Frame.chunk.inj h]
        exact ⟨rfl, ⟨_, rfl, rfl⟩, noNL_jserialize _⟩
      · exact Frame.noConfusion h
      · exact ih _ _ h
    · exact ih _ _ h
    · exact ih _ _ h

/-- C10: every frame emitted by any of the four streaming converters,
other than the `[DONE]` sentinel, is a chunk whose `object` field is
"chat.completion.chunk" and whose `choices` array has exactly one element
with index 0, whose compact JSON contains no newline (so it fits on the
single `data: ` line `writeChunk` writes), and `writeChunk` writes the
`data: ` marker, the JSON, a blank line, and flushes the writer
immediately after each frame. -/
theorem c10_frame_invariant :
    (∀ (model : String) (st : SCState) (lines : List String) (j : Json),
      Frame.chunk j ∈ (Anthro.scConvert model st lines).1 → chunkOk j) ∧
    (∀ (model : String) (now : Int) (st : SCState) (lines : List String) (j : Json),
      Frame.chunk j ∈ (Az.asgConvert model now st lines).1 → chunkOk j) ∧
    (∀ (model : String) (now : Int) (et : String) (lines : List String) (j : Json),
      Frame.chunk j ∈ (Az.srcConvert model now et lines).1 → chunkOk j) ∧
    (∀ (model : String) (now : Int) (et : String) (lines : List String) (j : Json),
      Frame.chunk j ∈ Az.aspConvert model now et lines → chunkOk j) ∧
    (∀ j : Json, wcEvents j =
      [.write "data: ", .write (jserialize j), .write "\n\n", .flush]) :=
  ⟨fun model st lines j h => scConvert_chunkOk model lines st j h,
   fun model now st lines j h => asgConvert_chunkOk model now lines st j h,
   fun model now et lines j h => srcConvert_chunkOk model now lines et j h,
   fun model now et lines j h => aspConvert_chunkOk model now lines et j h,
   fun _ => rfl⟩

/-- C10 witness: the chunk emitted for a concrete `content_block_delta`
line satisfies the frame invariant, and its writer events are the single
`data: ` line, the blank line and the flush. -/
theorem c10_witness :
    chunkOk (Anthro.scDeltaChunk "id0" "m" "Hi") ∧
    wcEvents (Anthro.scDeltaChunk "id0" "m" "Hi") =
      [.write "data: ", .write (jserialize (Anthro.scDeltaChunk "id0" "m" "Hi")),
       .write "\n\n", .flush] := by
  refine ⟨c10_frame_invariant.1 "m" ⟨"content_block_delta", "id0"⟩
      ["data: \x7b\"type\":\"content_block_delta\",\"delta\":\x7b\"text\":\"Hi\"\x7d\x7d"]
      (Anthro.scDeltaChunk "id0" "m" "Hi") ?_,
    c10_frame_invariant.2.2.2.2 _⟩
  exact List.mem_cons_self _ _

end Proxy
